import Mathlib

/-!
Shallow embedding of the generation-request pipeline of
`netlify/functions/generate-itinerary.mjs` (the current document of that
file): directive/prompt construction from the request body, the markdown
fence sanitizer `cleanJsonString`, the `JSON.parse` step, the normalizer
`cleanItineraryForFrontend`, and the handler's response mapping.

Conventions of the embedding:
* JSON values are modelled by `Json` below.  JSON numerals are restricted to
  integers (floating point is outside the embedding; every numeral occurring
  in this development is an integer).
* JavaScript `undefined` is modelled by `Option.none` at use sites
  (a missing object property reads as `none`).
* The `.mjs` file is an ES module, hence strict mode: assigning a property
  on a primitive (string/number/boolean) or on `null` throws a `TypeError`.
  Functions that can throw are modelled with `Option`/`Except`, `none`
  (resp. `.error`) meaning an exception propagating to the handler's
  `catch` block.
* In-place mutation of the parsed tree is modelled by functional update;
  no read ever observes a partially-mutated value in the source, so the
  final values coincide.
-/

/-- Model of a parsed JSON value (`JSON.parse` result tree). -/
inductive Json where
  | null : Json
  | bool (b : Bool) : Json
  | num (n : Int) : Json
  | str (s : String) : Json
  | arr (elems : List Json) : Json
  | obj (fields : List (String × Json)) : Json

/-- Look up a key in an object's field list (first binding wins; parse
results never contain duplicate keys). -/
def getKey : List (String × Json) → String → Option Json
  | [], _ => none
  | (k', v) :: rest, k => if k' = k then some v else getKey rest k

/-- Update a key in an object's field list, appending it if absent —
JavaScript property-assignment order semantics. -/
def setKey : List (String × Json) → String → Json → List (String × Json)
  | [], k, v => [(k, v)]
  | (k', v') :: rest, k, v =>
      if k' = k then (k, v) :: rest else (k', v') :: setKey rest k v

/-- JavaScript property read `v.k` on a non-`null` target: on an object,
the binding (or `undefined` = `none`); on any other non-`null` value,
`undefined` (primitives box, and the named properties of arrays are never
read by this pipeline).  A read on `null` throws; the cleaner only ever
reads a possibly-`null` target inside a `x.k = x.k || d` statement whose
assignment throws on `null` anyway, so `jget`'s `null` case is never the
deciding one there — the handler's direct discriminant reads, where the
throw is observable, go through `jgetX` below. -/
def jget (v : Json) (k : String) : Option Json :=
  match v with
  | .obj kvs => getKey kvs k
  | _ => none

/-- JavaScript property read `v.k` as a possibly-throwing expression:
reading a property of `null` (the only `JSON.parse` output on which a
property read throws) raises a `TypeError` (`none`); on every other value
it evaluates to `jget v k`.  This models source line 20's
`requestBody.preferences`, which throws into the catch-all when the
request body is the JSON literal `null`. -/
def jgetX (v : Json) (k : String) : Option (Option Json) :=
  match v with
  | .null => none
  | _ => some (jget v k)

/-- JavaScript property write `v.k = x` in strict mode: on an object it
updates/appends the binding; on `null` or a primitive it throws a
`TypeError` (`none`); on an array the named property is accepted but is
invisible to `JSON.stringify`, and it is never read back by this pipeline,
so the array is returned unchanged. -/
def jset (v : Json) (k : String) (x : Json) : Option Json :=
  match v with
  | .obj kvs => some (.obj (setKey kvs k x))
  | .arr xs => some (.arr xs)
  | _ => none

/-- JavaScript truthiness of a parsed JSON value. -/
def truthy : Json → Bool
  | .null => false
  | .bool b => b
  | .num n => n ≠ 0
  | .str s => s ≠ ""
  | .arr _ => true
  | .obj _ => true

/-- Truthiness of a possibly-`undefined` value. -/
def truthyO : Option Json → Bool
  | none => false
  | some v => truthy v

/-- JavaScript `a || b` on a possibly-`undefined` left operand. -/
def jsOr (o : Option Json) (dflt : Json) : Json :=
  match o with
  | some v => if truthy v then v else dflt
  | none => dflt

/-- `Array.isArray(x) ? x : []` — the pattern used for every sequence
field of the cleaned itinerary. -/
def ensureArray (o : Option Json) : Json :=
  match o with
  | some (.arr xs) => .arr xs
  | _ => .arr []

def isStrB : Json → Bool
  | .str _ => true
  | _ => false

def isNumB : Json → Bool
  | .num _ => true
  | _ => false

def isArrB : Json → Bool
  | .arr _ => true
  | _ => false

def isObjB : Json → Bool
  | .obj _ => true
  | _ => false

/-- `v` has the same JSON kind (constructor) as the default `d`. -/
def likeDefault (d v : Json) : Bool :=
  match d, v with
  | .str _, .str _ => true
  | .num _, .num _ => true
  | .arr _, .arr _ => true
  | .obj _, .obj _ => true
  | .bool _, .bool _ => true
  | .null, .null => true
  | _, _ => false

/-- A field slot is benign for the default `d`: absent, falsy (so the
`||`-default replaces it) or already of the default's kind. -/
def okField (d : Json) (o : Option Json) : Bool :=
  match o with
  | none => true
  | some v => !truthy v || likeDefault d v

/-- Decimal digits of a natural number, most significant first, by fuel
(structural, so that concrete renderings reduce in the kernel; the fuel
in `natToChars` always suffices since `n / 10 < n` for `n ≥ 10`). -/
def natToCharsAux : Nat → Nat → List Char
  | 0, _ => []
  | fuel + 1, n =>
      if n < 10 then [Char.ofNat (48 + n)]
      else natToCharsAux fuel (n / 10) ++ [Char.ofNat (48 + n % 10)]

/-- Decimal rendering of a natural number (the rendering used by
JavaScript string interpolation for a non-negative integer). -/
def natToChars (n : Nat) : List Char := natToCharsAux (n + 1) n

/-- JavaScript decimal rendering of an integer. -/
def intToChars (i : Int) : List Char :=
  if i < 0 then '-' :: natToChars i.natAbs else natToChars i.natAbs

/-- `String(n)` for a modelled JSON integer. -/
def natToString (n : Nat) : String := ⟨natToChars n⟩

/-- `(n).toString().padStart(2, '0')` for the month/day components used by
the default start date (values below 100, as produced by `Date`). -/
def pad2 (n : Nat) : String :=
  if n < 10 then "0" ++ natToString n else natToString n

/-- The ambient current date observed through `new Date()`:
`getFullYear()`, `getMonth()` (0-based) and `getDate()`. -/
structure JsDate where
  year : Nat
  month0 : Nat
  day : Nat

/-- The `defaultStartDate` string built in the startDate-absent branch:
`year + '-' + pad(month+1) + '-' + pad(day)`. -/
def defaultStartDate (t : JsDate) : String :=
  natToString t.year ++ "-" ++ pad2 (t.month0 + 1) ++ "-" ++ pad2 t.day

mutual

/-- JavaScript stringification `String(v)` of a parsed JSON value, as used
by template-literal interpolation (arrays stringify as their elements
joined by commas, `null` elements rendering empty). -/
def jsToString : Json → String
  | .null => "null"
  | .bool true => "true"
  | .bool false => "false"
  | .num n => ⟨intToChars n⟩
  | .str s => s
  | .obj _ => "[object Object]"
  | .arr xs => jsJoin "," xs

/-- `Array.prototype.join`: elements stringified, `null`/`undefined`
elements rendered as the empty string. -/
def jsJoin (sep : String) : List Json → String
  | [] => ""
  | [.null] => ""
  | [x] => jsToString x
  | .null :: y :: rest => sep ++ jsJoin sep (y :: rest)
  | x :: y :: rest => jsToString x ++ sep ++ jsJoin sep (y :: rest)

end

/-- Template-literal interpolation of a possibly-`undefined` value. -/
def jsToStringO : Option Json → String
  | none => "undefined"
  | some v => jsToString v

/-- Base prompt: destination and duration (source lines 21–22). -/
def basePrompt (preferences : Json) : String :=
  "Generate a highly detailed travel itinerary for a trip to "
    ++ jsToStringO (jget preferences "destination") ++ " for "
    ++ jsToStringO (jget preferences "duration") ++ " days."

/-- travelStyle clause with its infer-a-style else-branch (lines 25–29). -/
def styleClause (o : Option Json) : String :=
  if truthyO o then " The user prefers a " ++ jsToStringO o ++ " style trip."
  else " Please infer a suitable travel style based on the destination and common travel preferences (e.g., \"Romantic\", \"Cultural\", \"Adventurous\", \"Moderate\")."

/-- interests clause (lines 30–32): appended when
`preferences.interests && preferences.interests.length > 0`; `.join` on a
truthy non-array whose `length` exceeds 0 throws a `TypeError` (`none`).
Numeric-string coercion of an object's `length` property is not modelled
(never exercised here). -/
def interestsClause (o : Option Json) : Option String :=
  match o with
  | some (.str s) => if s = "" then some "" else none
  | some (.arr xs) =>
      some (if 0 < xs.length then " User interests include: " ++ jsJoin ", " xs ++ "." else "")
  | some (.obj kvs) =>
      match getKey kvs "length" with
      | some (.num n) => if 0 < n then none else some ""
      | _ => some ""
  | _ => some ""

/-- budget clause with its estimate-a-budget else-branch (lines 33–37). -/
def budgetClause (o : Option Json) : String :=
  if truthyO o then " Budget: " ++ jsToStringO o ++ "."
  else " Please provide a general estimated budget range for the entire trip (e.g., \"$1000 - $2000 USD\", \"Low\", \"Medium\", \"High\")."

/-- groupSize clause (lines 38–40). -/
def groupClause (o : Option Json) : String :=
  if truthyO o then " Group size: " ++ jsToStringO o ++ " people." else ""

/-- accommodation clause (lines 41–43). -/
def accomClause (o : Option Json) : String :=
  if truthyO o then " Preferred accommodation: " ++ jsToStringO o ++ "." else ""

/-- startDate clause (lines 44–51): when absent, the current date read
from `new Date()` is embedded. -/
def startDateClause (o : Option Json) (t : JsDate) : String :=
  if truthyO o then
    " Starting on: " ++ jsToStringO o ++ ". Ensure all daily dates are correctly calculated from this start date."
  else
    " The trip starts on a date around " ++ defaultStartDate t ++ ". Ensure all daily dates are correctly calculated from this."

/-- specificRequests clause (lines 52–54). -/
def requestsClause (o : Option Json) : String :=
  if truthyO o then " Specific requests: " ++ jsToStringO o ++ "." else ""

/-- The preferences-branch prompt body (lines 21–54); `none` models a
thrown `TypeError` (from `.join` on a non-array). -/
def prefsPrompt (preferences : Json) (t : JsDate) : Option String := do
  let i ← interestsClause (jget preferences "interests")
  return basePrompt preferences
    ++ styleClause (jget preferences "travelStyle")
    ++ i
    ++ budgetClause (jget preferences "budget")
    ++ groupClause (jget preferences "groupSize")
    ++ accomClause (jget preferences "accommodation")
    ++ startDateClause (jget preferences "startDate") t
    ++ requestsClause (jget preferences "specificRequests")

/-- First third of the schema-contract suffix (source lines 72–108; the
template literal is transcribed verbatim, split into three pieces at
newline boundaries so that kernel-level scans of it stay shallow). -/
def jsonSuffixA : String :=
  "\n    Respond in a strict JSON format. It is absolutely crucial that you ensure ALL fields are populated with realistic, detailed, and relevant information. Do NOT leave any field as \"N/A\", null, or empty. If a specific detail is not provided by the user, you MUST infer a reasonable and realistic value based on the destination and trip duration.\n\n    The top-level JSON object must have these keys:\n    - \"destination\": (string, e.g., \"Paris, France\")\n    - \"duration\": (number, total number of days)\n    - \"estimatedBudget\": (string, a realistic total budget estimate for the trip, e.g., \"$1,090.00\", \"$1500-2500 EUR for 5 days\", or \"Moderate budget\". MUST be populated.)\n    - \"travelStyle\": (string, infer a style like \"Romantic\", \"Cultural\", \"Adventurous\", \"Moderate\". MUST be populated.)\n    - \"weatherOverview\": (string, a general summary of weather for the entire trip duration for the inferred dates and destination, e.g., \"July in Paris is typically warm and sunny, with average highs in the 70s (°F) and lows in the 60s (°F). Expect some occasional showers, so pack layers and an umbrella.\" MUST be populated.)"

/-- Second third of the schema-contract suffix. -/
def jsonSuffixB : String :=
  "\n    - \"essentialTravelTips\": (array of strings, 3-5 general, practical tips for the destination, e.g., [\"Purchase a Navigo Découverte pass for easy and affordable public transport.\", \"Learn a few basic French phrases – it will enhance your experience.\"]. MUST be populated with useful tips.)\n    - \"emergencyInformation\": (object with keys:\n        - \"Emergency Contacts\": (array of strings, e.g., [\"112 (emergency number)\", \"17 (police)\", \"15 (ambulance)\"])\n        - \"Hospitals\": (array of strings, e.g., [\"Hôpital Pitié-Salpêtrière, 47 Boulevard de l\x27Hôpital, 75013 Paris\"])\n        - \"Embassies\": (array of strings, e.g., [\"Check your country\x27s embassy website for their Paris address.\"])\n        MUST be populated with relevant and real information for the destination.)\n    \n    The \"days\" key must be an array of objects. Each day object MUST have the following keys:\n    - \"dayNumber\": (number, starting from 1)\n    - \"date\": (string, in a clear, readable format like \"Thursday, December 26th, 2024\". MUST be accurately inferred based on the trip\x27s start date and duration.)\n    - \"dailyWeather\": (object with keys:\n        - \"tempRange\": (string, e.g., \"60° - 75°C\" or \"15° - 25°C\")\n        - \"condition\": (string, e.g., \"Sunny\", \"Partly Cloudy\", \"Rainy\")\n        - \"weatherTip\": (string, a specific tip for the day\x27s weather, e.g., \"Wear comfortable shoes and light clothing.\" or \"Carry an umbrella and wear layers.\")\n        MUST be populated with realistic weather and tip for the inferred date and destination.)\n    - \"activities\": (array of objects, provide 3-4 distinct activities for each day, ensuring variety and logical flow. Each activity object MUST have:"

/-- Last third of the schema-contract suffix. -/
def jsonSuffixC : String :=
  "\n        - \"name\": (string, e.g., \"Eiffel Tower Visit\")\n        - \"category\": (string, concise category like \"sightseeing | relaxation\", \"culture\", \"dining\", \"shopping\". Use multiple if applicable, separated by \"|\")\n        - \"type\": (string, \"outdoor\", \"indoor\", or \"flexible\")\n        - \"description\": (string, a brief sentence or two, e.g., \"Ascend the iconic tower for panoramic city views.\")\n        - \"duration\": (string, e.g., \"2 hours\", \"1.5 hours\", \"Full day\")\n        - \"location\": (string, specific address or general area, e.g., \"Champ de Mars, 5 Avenue Anatole France, 75007 Paris\", or \"Various bistros near the Eiffel Tower\". Provide real locations.)\n        - \"cost\": (string, a realistic estimated cost like \"$50.00\", \"$20.00\", \"Free\", \"Moderate\", \"High\". MUST be populated.)\n        - \"rating\": (string, a subjective rating out of 5, e.g., \"4/5\", \"5/5\". MUST be populated.)\n        - \"photos\": (string, a placeholder description for an image, e.g., \"A couple enjoying the sunset views from a Seine River cruise.\" or \"The iconic glass pyramid of the Louvre Museum.\". MUST be populated.)\n    ).\n    - \"daySummary\": (string, a brief, engaging sentence summarizing the day\x27s theme or main activities, e.g., \"Explore iconic landmarks and indulge in Parisian charm.\" or \"Welcome to Paris! Settle into your hotel and begin your romantic adventure.\". MUST be populated.)\n    "

/-- The fixed schema-contract suffix appended to every prompt (source
lines 72–108). -/
def jsonSuffix : String := jsonSuffixA ++ jsonSuffixB ++ jsonSuffixC

/-- Outcome of the prompt-building stage of the handler (lines 17–67). -/
inductive PromptOutcome where
  | invalid : PromptOutcome
  | thrown : PromptOutcome
  | built (p : String) : PromptOutcome
  deriving DecidableEq

/-- The naturalLanguageQuery branch (lines 56–57) and the invalid-input
fall-through (lines 59–67). -/
def promptNlq (requestBody : Json) : PromptOutcome :=
  match jget requestBody "naturalLanguageQuery" with
  | some q =>
      if truthy q then
        .built ("Create a highly detailed travel itinerary based on this natural language request: "
          ++ jsToString q ++ jsonSuffix)
      else .invalid
  | none => .invalid

/-- Prompt construction from the request body (lines 17–108): the read
of `requestBody.preferences` (line 20) throws a `TypeError` when the
parsed body is the JSON literal `null`; otherwise the `preferences`
branch takes priority, then `naturalLanguageQuery` (reached only with a
non-`null` body, so its read cannot throw), and otherwise the request is
invalid (HTTP 400). -/
def promptStage (requestBody : Json) (t : JsDate) : PromptOutcome :=
  match jgetX requestBody "preferences" with
  | none => .thrown
  | some (some prefs) =>
      if truthy prefs then
        match prefsPrompt prefs t with
        | some p => .built (p ++ jsonSuffix)
        | none => .thrown
      else promptNlq requestBody
  | some none => promptNlq requestBody

/-- Index of the first occurrence of `pat` as a contiguous segment of
`l`, scanning left to right (the position where the JavaScript regex
engine anchors a match beginning with this literal). -/
def firstIdx (pat : List Char) : List Char → Option Nat
  | [] => if pat.isEmpty then some 0 else none
  | c :: rest =>
      if pat.isPrefixOf (c :: rest) then some 0
      else (firstIdx pat rest).map (· + 1)

/-- The literal opening delimiter of the fence regex `/```json\n([\s\S]*?)\n```/`. -/
def openPat : List Char := ['`', '`', '`', 'j', 's', 'o', 'n', '\n']

/-- The literal closing delimiter of the fence regex. -/
def closePat : List Char := ['\n', '`', '`', '`']

/-- `cleanJsonString` (source lines 138–141) on character lists: the
regex `/```json\n([\s\S]*?)\n```/` matches at the first occurrence of
the opening delimiter that is followed by the closing delimiter, with a
lazy (shortest) inner group; `match` returns the first such group, and
the input is returned unchanged when there is no match. -/
def cleanChars (s : List Char) : List Char :=
  match firstIdx openPat s with
  | none => s
  | some i =>
      match firstIdx closePat ((s.drop i).drop openPat.length) with
      | none => s
      | some j => ((s.drop i).drop openPat.length).take j

/-- `cleanJsonString` (source lines 138–141). -/
def cleanJsonString (jsonString : String) : String :=
  ⟨cleanChars jsonString.data⟩

/-- One `field = field || default` statement of the cleaning function,
folded over a list of (key, default) pairs in source order. -/
def defaultFields : List (String × Json) → Json → Option Json
  | [], v => some v
  | kd :: rest, v => do
      let v' ← jset v kd.1 (jsOr (jget v kd.1) kd.2)
      defaultFields rest v'

/-- The nine activity defaults of source lines 184–192, in order. -/
def activityDefaults : List (String × Json) :=
  [("name", .str "N/A"), ("category", .str "N/A"), ("type", .str "N/A"),
   ("description", .str "N/A"), ("duration", .str "N/A"), ("location", .str "N/A"),
   ("cost", .str "N/A"), ("rating", .str "N/A"), ("photos", .str "N/A")]

/-- The per-activity cleaning lambda (source lines 183–193). -/
def cleanActivity (activity : Json) : Option Json :=
  defaultFields activityDefaults activity

/-- `Array.prototype.map` with a callback that may throw: the first
thrown exception aborts the whole map. -/
def mapClean (f : Json → Option Json) : List Json → Option (List Json)
  | [] => some []
  | x :: rest => do
      let y ← f x
      let ys ← mapClean f rest
      pure (y :: ys)

/-- `day.activities` handling (source lines 182–197): a present array is
mapped through the activity cleaner (a thrown `TypeError` aborts the
`map`), anything else is replaced by `[]`. -/
def cleanActs (o : Option Json) : Option Json :=
  match o with
  | some (.arr xs) => (mapClean cleanActivity xs).map Json.arr
  | _ => some (.arr [])

/-- The per-day cleaning lambda (source lines 168–198).  The in-place
`day.dailyWeather` mutations are modelled by computing the final weather
object and writing it once; no intermediate state is read in the source. -/
def cleanDay (day : Json) : Option Json := do
  let day ← defaultFields [("dayNumber", .num 0), ("date", .str "Date N/A")] day
  let dw ← defaultFields
      [("tempRange", .str "N/A"), ("condition", .str "N/A"), ("weatherTip", .str "N/A")]
      (jsOr (jget day "dailyWeather") (.obj []))
  let day ← jset day "dailyWeather" dw
  let day ← jset day "dailyTips" (ensureArray (jget day "dailyTips"))
  let day ← defaultFields [("daySummary", .str "N/A")] day
  let acts ← cleanActs (jget day "activities")
  jset day "activities" acts

/-- The five top-level string/number defaults of source lines 153–157. -/
def topDefaults : List (String × Json) :=
  [("destination", .str "N/A"), ("duration", .num 0), ("estimatedBudget", .str "N/A"),
   ("travelStyle", .str "N/A"), ("weatherOverview", .str "N/A")]

/-- `itinerary.days` handling (source lines 167–202). -/
def cleanDays (o : Option Json) : Option Json :=
  match o with
  | some (.arr xs) => (mapClean cleanDay xs).map Json.arr
  | _ => some (.arr [])

/-- `cleanItineraryForFrontend` (source lines 149–204): `null`/falsy input
short-circuits to `null`; otherwise every field is defaulted in source
order.  A `none` result models a `TypeError` thrown in strict mode
(property assignment on a truthy primitive), which the handler's `catch`
turns into an HTTP 500. -/
def cleanItineraryForFrontend (itinerary : Json) : Option Json :=
  if !truthy itinerary then some .null
  else do
    let itinerary ← defaultFields topDefaults itinerary
    let itinerary ← jset itinerary "essentialTravelTips"
        (ensureArray (jget itinerary "essentialTravelTips"))
    let ei0 := jsOr (jget itinerary "emergencyInformation") (.obj [])
    let ei ← jset ei0 "Emergency Contacts" (ensureArray (jget ei0 "Emergency Contacts"))
    let ei ← jset ei "Hospitals" (ensureArray (jget ei "Hospitals"))
    let ei ← jset ei "Embassies" (ensureArray (jget ei "Embassies"))
    let itinerary ← jset itinerary "emergencyInformation" ei
    let days ← cleanDays (jget itinerary "days")
    jset itinerary "days" days

/-- JSON whitespace (the four characters `JSON.parse` skips). -/
def isJsonWs (c : Char) : Bool :=
  c = ' ' || c = '\t' || c = '\n' || c = '\r'

/-- Skip leading JSON whitespace. -/
def skipWs : List Char → List Char
  | [] => []
  | c :: cs => if isJsonWs c then skipWs cs else c :: cs

/-- Value of a hexadecimal digit, for `\uXXXX` escapes. -/
def hexVal (c : Char) : Option Nat :=
  if c.isDigit then some (c.toNat - 48)
  else if 'a' ≤ c && c ≤ 'f' then some (c.toNat - 87)
  else if 'A' ≤ c && c ≤ 'F' then some (c.toNat - 55)
  else none

/-- Parse the body of a JSON string literal after the opening quote,
returning the decoded characters and the remainder after the closing
quote.  Raw control characters are rejected, as by `JSON.parse`.
(Surrogate pairing of `\u` escapes is not modelled; no input of this
development uses them.) -/
def parseStrBody : List Char → Except String (List Char × List Char)
  | [] => .error "Unterminated string in JSON"
  | '"' :: cs => .ok ([], cs)
  | '\\' :: 'u' :: h1 :: h2 :: h3 :: h4 :: cs =>
      (match hexVal h1, hexVal h2, hexVal h3, hexVal h4 with
       | some a, some b, some c, some d => do
           let (body, rest) ← parseStrBody cs
           .ok (Char.ofNat (a * 4096 + b * 256 + c * 16 + d) :: body, rest)
       | _, _, _, _ => .error "Bad Unicode escape in JSON")
  | '\\' :: e :: cs =>
      (match
        (if e = '"' then some '"' else if e = '\\' then some '\\'
         else if e = '/' then some '/' else if e = 'b' then some (Char.ofNat 8)
         else if e = 'f' then some (Char.ofNat 12) else if e = 'n' then some '\n'
         else if e = 'r' then some '\r' else if e = 't' then some '\t' else none) with
       | some d => do
           let (body, rest) ← parseStrBody cs
           .ok (d :: body, rest)
       | none => .error "Bad escaped character in JSON")
  | c :: cs =>
      if c.toNat < 32 then .error "Bad control character in string literal in JSON"
      else do
        let (body, rest) ← parseStrBody cs
        .ok (c :: body, rest)

/-- Accumulate decimal digits into a natural number. -/
def digitsToNat (ds : List Char) (acc : Nat) : Nat :=
  match ds with
  | [] => acc
  | c :: cs => digitsToNat cs (acc * 10 + (c.toNat - 48))

/-- Reject the fraction/exponent forms: the model restricts JSON numerals
to integers (floating point is outside the embedding). -/
def checkIntegral (n : Nat) (r : List Char) : Except String (Nat × List Char) :=
  match r with
  | '.' :: _ => .error "Non-integral numeral (outside the integral model of JSON numbers)"
  | 'e' :: _ => .error "Non-integral numeral (outside the integral model of JSON numbers)"
  | 'E' :: _ => .error "Non-integral numeral (outside the integral model of JSON numbers)"
  | _ => .ok (n, r)

/-- Parse the natural-number part of a numeral (leading zeros rejected,
as by `JSON.parse`). -/
def parseNatPart : List Char → Except String (Nat × List Char)
  | [] => .error "Unexpected end of JSON input"
  | c :: rest =>
      if c = '0' then
        match rest with
        | d :: _ =>
            if d.isDigit then .error "Unexpected number in JSON"
            else checkIntegral 0 rest
        | [] => .ok (0, [])
      else if c.isDigit then
        let ds := rest.takeWhile Char.isDigit
        checkIntegral (digitsToNat (c :: ds) 0) (rest.dropWhile Char.isDigit)
      else .error "Unexpected token in JSON"

/-- Parse a JSON numeral (integral fragment). -/
def parseNumber (cs : List Char) : Except String (Json × List Char) :=
  match cs with
  | '-' :: rest => do
      let (n, r) ← parseNatPart rest
      .ok (.num (-(n : Int)), r)
  | _ => do
      let (n, r) ← parseNatPart cs
      .ok (.num (n : Int), r)

mutual

/-- Recursive-descent model of `JSON.parse` on a value, fueled (the fuel
is structural bookkeeping only; `parseJson` supplies more fuel than any
input can consume). -/
def parseValue : Nat → List Char → Except String (Json × List Char)
  | 0, _ => .error "JSON nesting exceeds model fuel"
  | fuel + 1, cs =>
      match skipWs cs with
      | [] => .error "Unexpected end of JSON input"
      | c :: rest =>
          if c = '"' then do
            let (body, r) ← parseStrBody rest
            .ok (.str ⟨body⟩, r)
          else if c = '\x7b' then parseMembers fuel [] rest
          else if c = '[' then parseElements fuel [] rest
          else if c = 'n' then
            if ['u', 'l', 'l'].isPrefixOf rest then .ok (.null, rest.drop 3)
            else .error "Unexpected token in JSON"
          else if c = 't' then
            if ['r', 'u', 'e'].isPrefixOf rest then .ok (.bool true, rest.drop 3)
            else .error "Unexpected token in JSON"
          else if c = 'f' then
            if ['a', 'l', 's', 'e'].isPrefixOf rest then .ok (.bool false, rest.drop 4)
            else .error "Unexpected token in JSON"
          else if c = '-' || c.isDigit then parseNumber (c :: rest)
          else .error "Unexpected token in JSON"

/-- Parse object members after `\x7b` (duplicate keys overwrite in place,
as in `JSON.parse`). -/
def parseMembers : Nat → List (String × Json) → List Char → Except String (Json × List Char)
  | 0, _, _ => .error "JSON nesting exceeds model fuel"
  | fuel + 1, acc, cs =>
      match skipWs cs with
      | [] => .error "Unexpected end of JSON input"
      | '\x7d' :: rest =>
          if acc.isEmpty then .ok (.obj acc, rest)
          else .error "Unexpected token in JSON"
      | '"' :: rest => do
          let (key, r1) ← parseStrBody rest
          match skipWs r1 with
          | ':' :: r2 => do
              let (v, r3) ← parseValue fuel r2
              let acc' := setKey acc ⟨key⟩ v
              match skipWs r3 with
              | ',' :: r4 => parseMembers fuel acc' r4
              | '\x7d' :: r4 => .ok (.obj acc', r4)
              | _ => .error "Unexpected token in JSON"
          | _ => .error "Unexpected token in JSON"
      | _ => .error "Unexpected token in JSON"

/-- Parse array elements after `[`. -/
def parseElements : Nat → List Json → List Char → Except String (Json × List Char)
  | 0, _, _ => .error "JSON nesting exceeds model fuel"
  | fuel + 1, acc, cs =>
      match skipWs cs with
      | [] => .error "Unexpected end of JSON input"
      | ']' :: rest =>
          if acc.isEmpty then .ok (.arr [], rest)
          else .error "Unexpected token in JSON"
      | _ => do
          let (v, r) ← parseValue fuel cs
          match skipWs r with
          | ',' :: r2 => parseElements fuel (acc ++ [v]) r2
          | ']' :: r2 => .ok (.arr (acc ++ [v]), r2)
          | _ => .error "Unexpected token in JSON"

end

/-- Model of `JSON.parse` (source line 145): one value, then only
trailing whitespace.  `.error` models the thrown `SyntaxError` (message
text is platform-specific and modelled). -/
def parseJson (s : String) : Except String Json := do
  let (v, rest) ← parseValue (2 * s.data.length + 2) s.data
  match skipWs rest with
  | [] => .ok v
  | _ => .error "Unexpected non-whitespace character after JSON data"

/-- A response body: `JSON.stringify` output of a value, or a plain text
body (`new Response('...')` on a bare string). -/
inductive RespBody where
  | jsonBody (j : Json)
  | textBody (s : String)

/-- The observable part of a `Response` produced by the handler. -/
structure HandlerResponse where
  status : Nat
  body : RespBody

/-- The 400 invalid-input response (source lines 59–67): note its JSON
body carries only an `error` field. -/
def invalidResponse : HandlerResponse :=
  ⟨400, .jsonBody (.obj [("error", .str "Invalid input format. Please provide valid preferences or a natural language query.")])⟩

/-- The missing-API-key response (source lines 111–115): HTTP 500 with a
plain text body, not JSON. -/
def missingKeyResponse : HandlerResponse :=
  ⟨500, .textBody "Server configuration error: API Key not set."⟩

/-- The catch-all error response (source lines 224–230): HTTP 500 with
`error` and `details` fields, `details` being the thrown message. -/
def catchResponse (msg : String) : HandlerResponse :=
  ⟨500, .jsonBody (.obj [("error", .str "Failed to generate itinerary. Please try again."),
                         ("details", .str msg)])⟩

/-- Modelled message of a strict-mode `TypeError` (platform-specific). -/
def typeErrorMessage : String := "TypeError in strict mode"

/-- The tail of the pipeline once the oracle text is in hand (source
lines 135–213): sanitize, `JSON.parse`, clean, respond — with both the
`SyntaxError` of the parse and a `TypeError` of the cleaning landing in
the catch block. -/
def processOracleText (text : String) : HandlerResponse :=
  match parseJson (cleanJsonString text) with
  | .error msg => catchResponse msg
  | .ok parsed =>
      match cleanItineraryForFrontend parsed with
      | none => catchResponse typeErrorMessage
      | some fin => ⟨200, .jsonBody fin⟩

/-- The whole handler (source lines 9–232), with the ambient inputs made
explicit: HTTP method, parsed request body, `process.env.GEMINI_API_KEY`
(`none` = unset), the current date, and the oracle call's outcome as a
function of the prompt. -/
def handler (method : String) (requestBody : Json) (apiKey : Option String)
    (t : JsDate) (oracle : String → Except String String) : HandlerResponse :=
  if method ≠ "POST" then ⟨405, .textBody "Method Not Allowed"⟩
  else
    match promptStage requestBody t with
    | .invalid => invalidResponse
    | .thrown => catchResponse typeErrorMessage
    | .built prompt =>
        match apiKey with
        | none => missingKeyResponse
        | some k =>
            if k = "" then missingKeyResponse
            else
              match oracle prompt with
              | .error msg => catchResponse msg
              | .ok text => processOracleText text

/-- Property read through an optional value (for stating field facts). -/
def jgetO (o : Option Json) (k : String) : Option Json :=
  match o with
  | some v => jget v k
  | none => none

/-- Index into an optional array value. -/
def jidx (o : Option Json) (i : Nat) : Option Json :=
  match o with
  | some (.arr xs) => xs.get? i
  | _ => none

/-- Length of an optional array value. -/
def jlen (o : Option Json) : Option Nat :=
  match o with
  | some (.arr xs) => some xs.length
  | _ => none

/-- The JSON body of a response, if it has one. -/
def respJson (r : HandlerResponse) : Option Json :=
  match r.body with
  | .jsonBody j => some j
  | .textBody _ => none

/-! Well-typedness predicates for the normalizer's input and output.
The input predicate `itinWT` captures the parsed documents on which the
cleaning function is exception-free and type-correcting: each field it
`||`-defaults is absent, falsy, or already of its schema kind; the slots
it writes through (`emergencyInformation`, `dailyWeather`) are absent,
falsy, or objects; members of `days`/`activities` are objects.  The
output predicate `goodItinerary` states the guaranteed shape: every
required field present with its schema kind. -/

/-- Benign slot for a string default. -/
def okStr (o : Option Json) : Bool := okField (.str "") o

/-- Benign slot for a numeric default. -/
def okNum (o : Option Json) : Bool := okField (.num 0) o

/-- Benign slot for a written-through object. -/
def okObj (o : Option Json) : Bool := okField (.obj []) o

/-- The field `k` is present with a string value. -/
def strAt (kvs : List (String × Json)) (k : String) : Bool :=
  match getKey kvs k with
  | some (.str _) => true
  | _ => false

/-- The field `k` is present with a numeric value. -/
def numAt (kvs : List (String × Json)) (k : String) : Bool :=
  match getKey kvs k with
  | some (.num _) => true
  | _ => false

/-- The field `k` is present with an array value. -/
def arrAt (kvs : List (String × Json)) (k : String) : Bool :=
  match getKey kvs k with
  | some (.arr _) => true
  | _ => false

/-- Well-typedness of a parsed activity for the activity cleaner. -/
def activityWT (a : Json) : Bool :=
  match a with
  | .obj kvs => activityDefaults.all (fun kd => okStr (getKey kvs kd.1))
  | _ => false

/-- Well-typedness of a parsed `dailyWeather` slot. -/
def weatherWT (o : Option Json) : Bool :=
  match o with
  | some (.obj kvs) =>
      okStr (getKey kvs "tempRange") && okStr (getKey kvs "condition")
        && okStr (getKey kvs "weatherTip")
  | o => okObj o

/-- Well-typedness of a parsed `activities` slot. -/
def actsWT (o : Option Json) : Bool :=
  match o with
  | some (.arr xs) => xs.all activityWT
  | _ => true

/-- Well-typedness of a parsed day for the day cleaner. -/
def dayWT (d : Json) : Bool :=
  match d with
  | .obj kvs =>
      okNum (getKey kvs "dayNumber") && okStr (getKey kvs "date")
        && weatherWT (getKey kvs "dailyWeather") && okStr (getKey kvs "daySummary")
        && actsWT (getKey kvs "activities")
  | _ => false

/-- Well-typedness of a parsed `days` slot. -/
def daysWT (o : Option Json) : Bool :=
  match o with
  | some (.arr xs) => xs.all dayWT
  | _ => true

/-- Well-typedness of a parsed document for the itinerary cleaner: an
object whose present fields have their schema kinds (or are falsy). -/
def itinWT (v : Json) : Bool :=
  match v with
  | .obj kvs =>
      okStr (getKey kvs "destination") && okNum (getKey kvs "duration")
        && okStr (getKey kvs "estimatedBudget") && okStr (getKey kvs "travelStyle")
        && okStr (getKey kvs "weatherOverview") && okObj (getKey kvs "emergencyInformation")
        && daysWT (getKey kvs "days")
  | _ => false

/-- Guaranteed output shape of a cleaned activity. -/
def goodActivity (a : Json) : Bool :=
  match a with
  | .obj kvs =>
      strAt kvs "name" && strAt kvs "category" && strAt kvs "type"
        && strAt kvs "description" && strAt kvs "duration" && strAt kvs "location"
        && strAt kvs "cost" && strAt kvs "rating" && strAt kvs "photos"
  | _ => false

/-- Guaranteed output shape of a cleaned `dailyWeather` object. -/
def goodWeather (w : Json) : Bool :=
  match w with
  | .obj kvs =>
      strAt kvs "tempRange" && strAt kvs "condition" && strAt kvs "weatherTip"
  | _ => false

/-- Guaranteed output shape of a cleaned day. -/
def goodDay (d : Json) : Bool :=
  match d with
  | .obj kvs =>
      numAt kvs "dayNumber" && strAt kvs "date"
        && (match getKey kvs "dailyWeather" with
            | some w => goodWeather w
            | none => false)
        && arrAt kvs "dailyTips" && strAt kvs "daySummary"
        && (match getKey kvs "activities" with
            | some (.arr xs) => xs.all goodActivity
            | _ => false)
  | _ => false

/-- Guaranteed output shape of a cleaned itinerary: every required field
present with its schema kind. -/
def goodItinerary (v : Json) : Bool :=
  match v with
  | .obj kvs =>
      strAt kvs "destination" && numAt kvs "duration" && strAt kvs "estimatedBudget"
        && strAt kvs "travelStyle" && strAt kvs "weatherOverview"
        && arrAt kvs "essentialTravelTips"
        && (match getKey kvs "emergencyInformation" with
            | some (.obj e) =>
                arrAt e "Emergency Contacts" && arrAt e "Hospitals" && arrAt e "Embassies"
            | _ => false)
        && (match getKey kvs "days" with
            | some (.arr ds) => ds.all goodDay
            | _ => false)
  | _ => false

/-- Does the raw text contain a complete fence (so that the sanitizer's
regex matches)? -/
def hasFence (s : String) : Bool :=
  match firstIdx openPat s.data with
  | none => false
  | some i => (firstIdx closePat ((s.data.drop i).drop openPat.length)).isSome

/-- Occurrence of `pat` as a contiguous segment of `l`, as a Boolean
scan whose recursion stays in head position (so that concrete scans over
long strings reduce in the kernel without growing the stack). -/
def containsSeg (pat : List Char) : List Char → Bool
  | [] => pat.isEmpty
  | c :: rest => pat.isPrefixOf (c :: rest) || containsSeg pat rest

/-! Letter patterns whose presence/absence in the directive the spec
speaks about. -/

def accommodationPat : List Char := ['c', 'c', 'o', 'm', 'm', 'o', 'd', 'a', 't', 'i', 'o', 'n']

def interestPat : List Char := ['n', 't', 'e', 'r', 'e', 's', 't']

def nonePat : List Char := ['n', 'o', 'n', 'e']

def nullPat : List Char := ['n', 'u', 'l', 'l']

def undefinedPat : List Char := ['u', 'n', 'd', 'e', 'f', 'i', 'n', 'e', 'd']

def budgetPat : List Char := ['b', 'u', 'd', 'g', 'e', 't']

/-! Concrete inputs used by the claims. -/

/-- The oracle response of the end-to-end scenario. -/
def c4OracleText : String :=
  "```json\n\x7b\"destination\":\"Lisbon\",\"duration\":2,\"days\":[\x7b\"dayNumber\":1,\"activities\":[]\x7d]\x7d\n```"

/-- The structured preferences of the end-to-end scenario. -/
def lisbonPrefs : Json :=
  .obj [("destination", .str "Lisbon"), ("duration", .num 2),
        ("travelStyle", .str "relaxed"), ("budget", .str "budget"),
        ("interests", .arr []), ("groupSize", .num 1), ("accommodation", .str "hostel")]

/-- The request body of the end-to-end scenario. -/
def lisbonBody : Json := .obj [("preferences", lisbonPrefs)]

/-- An oracle that answers every prompt with a fixed text. -/
def constOracle (text : String) : String → Except String String := fun _ => .ok text

/-- A fixed current date. -/
def t0 : JsDate := ⟨2025, 4, 7⟩

/-- The end-to-end response of the C4 scenario. -/
def c4Response : HandlerResponse :=
  handler "POST" lisbonBody (some "key") t0 (constOracle c4OracleText)

/-- Preferences carrying only destination and duration. -/
def noDatePrefs : Json := .obj [("destination", .str "Lisbon"), ("duration", .num 2)]

/-- A request body supplying both discriminant keys, both non-empty. -/
def bothBody : Json :=
  .obj [("preferences", lisbonPrefs), ("naturalLanguageQuery", .str "go to Rome")]

/-- A parsed document whose sole activity has an unrecognized type. -/
def bananaItin : Json :=
  .obj [("days", .arr [.obj [("activities", .arr [.obj [("type", .str "banana")]])]])]

/-- A parsed document whose sole activity is the empty object. -/
def emptyActivityItin : Json :=
  .obj [("days", .arr [.obj [("activities", .arr [.obj []])]])]

/-- Oracle text that parses but whose cleaning throws: a truthy primitive
where the `emergencyInformation` object is expected. -/
def badEmergencyText : String := "\x7b\"emergencyInformation\":\"911\"\x7d"

/-- Preferences carrying an explicit startDate. -/
def datedPrefs : Json :=
  .obj [("destination", .str "Lisbon"), ("duration", .num 2),
        ("startDate", .str "2025-06-01")]

/-! Named constant segments of the minimal (destination+duration only)
directive, used to state where each pattern can and cannot occur. -/

def segTripTo : String := "Generate a highly detailed travel itinerary for a trip to "

def segFor : String := " for "

def segDays : String := " days."

def segStyle : String := " Please infer a suitable travel style based on the destination and common travel preferences (e.g., \"Romantic\", \"Cultural\", \"Adventurous\", \"Moderate\")."

def segBudget : String := " Please provide a general estimated budget range for the entire trip (e.g., \"$1000 - $2000 USD\", \"Low\", \"Medium\", \"High\")."

def segAround : String := " The trip starts on a date around "

def segEnsure : String := ". Ensure all daily dates are correctly calculated from this."

/-- The character-level decomposition of the user-intent part of the
minimal (destination+duration only) directive. -/
def minimalUserChars (dest : String) (dur : Int) (t : JsDate) : List Char :=
  segTripTo.data ++ (dest.data ++ (segFor.data ++ (intToChars dur ++
    (segDays.data ++ (segStyle.data ++ (segBudget.data ++ (segAround.data ++
    ((defaultStartDate t).data ++ segEnsure.data))))))))

/-! Basic lemmas about the object-field operations. -/

theorem getKey_setKey_self (kvs : List (String × Json)) (k : String) (v : Json) :
    getKey (setKey kvs k v) k = some v := by
  induction kvs with
  | nil => simp [setKey, getKey]
  | cons kv rest ih =>
      obtain ⟨k', v'⟩ := kv
      by_cases h : k' = k
      · simp [setKey, h, getKey]
      · simp [setKey, h, getKey, ih]

theorem getKey_setKey_ne (kvs : List (String × Json)) (k k' : String) (v : Json)
    (h : k' ≠ k) : getKey (setKey kvs k v) k' = getKey kvs k' := by
  induction kvs with
  | nil =>
      simp only [setKey, getKey]
      rw [if_neg (fun hc => h hc.symm)]
  | cons kv rest ih =>
      obtain ⟨k'', v''⟩ := kv
      by_cases h2 : k'' = k
      · subst h2
        simp only [setKey, if_pos rfl, getKey]
        rw [if_neg (fun hc => h hc.symm), if_neg (fun hc => h hc.symm)]
      · simp only [setKey, if_neg h2, getKey]
        by_cases h3 : k'' = k'
        · rw [if_pos h3, if_pos h3]
        · rw [if_neg h3, if_neg h3, ih]

theorem likeDefault_jsOr (d : Json) (o : Option Json)
    (hd : likeDefault d d = true) (ho : okField d o = true) :
    likeDefault d (jsOr o d) = true := by
  cases o with
  | none => simpa [jsOr] using hd
  | some v =>
      by_cases ht : truthy v = true
      · simp only [okField, ht, Bool.not_true, Bool.false_or] at ho
        simpa [jsOr, ht] using ho
      · simp only [Bool.not_eq_true] at ht
        simpa [jsOr, ht] using hd

/-- Unfolding of one step of `defaultFields` on an object. -/
theorem defaultFields_cons (k : String) (d : Json) (rest : List (String × Json))
    (kvs : List (String × Json)) :
    defaultFields ((k, d) :: rest) (.obj kvs) =
      defaultFields rest (.obj (setKey kvs k (jsOr (getKey kvs k) d))) := rfl

/-- Main property of a `field = field || default` chain on an object:
it always succeeds, each listed field ends as its `||`-defaulted value,
and all other fields are untouched. -/
theorem defaultFields_spec (fields : List (String × Json)) (kvs : List (String × Json))
    (hn : (fields.map Prod.fst).Nodup) :
    ∃ kvs', defaultFields fields (.obj kvs) = some (.obj kvs') ∧
      (∀ kd ∈ fields, getKey kvs' kd.1 = some (jsOr (getKey kvs kd.1) kd.2)) ∧
      (∀ k, k ∉ fields.map Prod.fst → getKey kvs' k = getKey kvs k) := by
  induction fields generalizing kvs with
  | nil => exact ⟨kvs, rfl, by simp, fun _ _ => rfl⟩
  | cons kd rest ih =>
      obtain ⟨k, d⟩ := kd
      simp only [List.map_cons, List.nodup_cons] at hn
      obtain ⟨hk, hrest⟩ := hn
      obtain ⟨kvs', heq, hmem, hframe⟩ := ih (setKey kvs k (jsOr (getKey kvs k) d)) hrest
      refine ⟨kvs', ?_, ?_, ?_⟩
      · rw [defaultFields_cons]
        exact heq
      · intro kd' hkd'
        rcases List.mem_cons.mp hkd' with h | hmem'
        · subst h
          rw [hframe k hk, getKey_setKey_self]
        · have hne : kd'.1 ≠ k := by
            intro hcontra
            exact hk (hcontra ▸ List.mem_map_of_mem Prod.fst hmem')
          rw [hmem kd' hmem', getKey_setKey_ne kvs k kd'.1 _ hne]
      · intro k' hk'
        simp only [List.map_cons, List.mem_cons, not_or] at hk'
        rw [hframe k' hk'.2, getKey_setKey_ne kvs k k' _ hk'.1]

/-- On a non-`null` target the possibly-throwing read is the plain read. -/
theorem jgetX_ne_null (v : Json) (k : String) (h : v ≠ .null) :
    jgetX v k = some (jget v k) := by
  cases v with
  | null => exact absurd rfl h
  | bool b => rfl
  | num n => rfl
  | str s => rfl
  | arr xs => rfl
  | obj kvs => rfl

/-- The prompt stage rejects a non-`null` body in which neither
discriminant key is truthy. -/
theorem promptStage_invalid (body : Json) (t : JsDate) (hn : body ≠ .null)
    (hp : truthyO (jget body "preferences") = false)
    (hq : truthyO (jget body "naturalLanguageQuery") = false) :
    promptStage body t = .invalid := by
  have hnlq : promptNlq body = .invalid := by
    unfold promptNlq
    cases hgq : jget body "naturalLanguageQuery" with
    | none => rfl
    | some q =>
        rw [hgq] at hq
        simp only [truthyO] at hq
        simp [hq]
  unfold promptStage
  rw [jgetX_ne_null body "preferences" hn]
  cases hgp : jget body "preferences" with
  | none => exact hnlq
  | some p =>
      rw [hgp] at hp
      simp only [truthyO] at hp
      simp [hp, hnlq]

/-- C2 (amended): a request whose parsed body is not the JSON literal
`null` and has neither discriminant truthy is rejected with the 400
invalid-input response before any oracle call (the response does not
depend on the oracle function at all); a JSON-`null` body instead throws
a `TypeError` at the very first discriminant read and lands in the
catch-all HTTP 500; and a request supplying both discriminants is not
rejected — `preferences` takes precedence and the prompt stage behaves
exactly as if `naturalLanguageQuery` were absent. -/
theorem c2_discriminant (body prefs : Json) (t : JsDate) (k : Option String)
    (o o' : String → Except String String) :
    (body ≠ .null →
     truthyO (jget body "preferences") = false →
     truthyO (jget body "naturalLanguageQuery") = false →
     handler "POST" body k t o = invalidResponse ∧
     handler "POST" body k t o = handler "POST" body k t o') ∧
    handler "POST" .null k t o = catchResponse typeErrorMessage ∧
    (jget body "preferences" = some prefs → truthy prefs = true →
     promptStage body t = promptStage (.obj [("preferences", prefs)]) t) := by
  refine ⟨?_, ?_, ?_⟩
  · intro hn hp hq
    have hstage := promptStage_invalid body t hn hp hq
    have h1 : handler "POST" body k t o = invalidResponse := by
      unfold handler
      rw [hstage]
      rfl
    have h2 : handler "POST" body k t o' = invalidResponse := by
      unfold handler
      rw [hstage]
      rfl
    exact ⟨h1, h1.trans h2.symm⟩
  · rfl
  · intro hgp htr
    have hn : body ≠ .null := by
      intro h
      subst h
      simp [jget] at hgp
    unfold promptStage
    rw [jgetX_ne_null body "preferences" hn, hgp,
      jgetX_ne_null (.obj [("preferences", prefs)]) "preferences"
        (fun h => Json.noConfusion h)]
    simp [jget, getKey, htr]

/-- C2 witness: the empty-object body (neither discriminant present) is
answered with the 400 invalid-input response, and with both discriminants
present the prompt stage equals the preferences-only prompt stage. -/
theorem c2_discriminant_witness :
    handler "POST" (.obj []) none t0 (constOracle "") = invalidResponse ∧
    promptStage bothBody t0 = promptStage (.obj [("preferences", lisbonPrefs)]) t0 :=
  ⟨((c2_discriminant (.obj []) .null t0 none (constOracle "") (constOracle "")).1
      (fun h => Json.noConfusion h) rfl rfl).1,
   (c2_discriminant bothBody lisbonPrefs t0 none (constOracle "")
      (constOracle "")).2.2 rfl rfl⟩

/-- C2 counterexample: a request supplying both discriminant keys, both
non-empty, is not rejected with HTTP 400 — the pipeline proceeds all the
way to HTTP 200, contradicting the claimed InvalidInput rejection. -/
theorem c2_counterexample :
    (handler "POST" bothBody (some "key") t0 (constOracle c4OracleText)).status = 200 ∧
    invalidResponse.status = 400 := ⟨rfl, rfl⟩

/-- C4 counterexample: at the claim's exact input the pipeline yields
`estimatedBudget = "N/A"`, not the claimed `""`, and there is no
`emergencyInfo` key at all (the code's canonical field is
`emergencyInformation` with sub-key "Emergency Contacts"). -/
theorem c4_counterexample :
    jgetO (respJson c4Response) "estimatedBudget" = some (.str "N/A") ∧
    jgetO (respJson c4Response) "estimatedBudget" ≠ some (.str "") ∧
    jgetO (respJson c4Response) "emergencyInfo" = none := by
  refine ⟨rfl, ?_, rfl⟩
  have h1 : jgetO (respJson c4Response) "estimatedBudget" = some (.str "N/A") := rfl
  rw [h1]
  intro h
  injection h with h2
  injection h2 with h3
  exact absurd h3 (by decide)

/-- C4 (amended): the end-to-end Lisbon scenario produces, without
throwing, HTTP 200 with destination "Lisbon", duration 2, one day whose
activities are `[]`, `estimatedBudget = "N/A"` (the code's placeholder
default, not `""`), and `emergencyInformation` carrying
`"Emergency Contacts" = []` (the code's canonical name for the contacts
sequence). -/
theorem c4_end_to_end :
    c4Response.status = 200 ∧
    jgetO (respJson c4Response) "destination" = some (.str "Lisbon") ∧
    jgetO (respJson c4Response) "duration" = some (.num 2) ∧
    jlen (jgetO (respJson c4Response) "days") = some 1 ∧
    jgetO (jidx (jgetO (respJson c4Response) "days") 0) "activities" = some (.arr []) ∧
    jgetO (respJson c4Response) "estimatedBudget" = some (.str "N/A") ∧
    jgetO (jgetO (respJson c4Response) "emergencyInformation") "Emergency Contacts" =
      some (.arr []) :=
  ⟨rfl, rfl, rfl, rfl, rfl, rfl, rfl⟩

/-- C5 (amended): failures reaching the catch-all path (oracle errors,
normalization exceptions) return HTTP 500 with a JSON body carrying both
`error` and `details`; but the InvalidInput rejection is HTTP 400 with an
`error` field only — no `details` — and the missing-API-key failure is
HTTP 500 with a plain-text body, not a JSON error/details body. -/
theorem c5_failure_shapes (body : Json) (t : JsDate) (k p msg : String)
    (oracle : String → Except String String) :
    (promptStage body t = .invalid →
       handler "POST" body (some k) t oracle = invalidResponse ∧
       jgetO (respJson invalidResponse) "error" =
         some (.str "Invalid input format. Please provide valid preferences or a natural language query.") ∧
       jgetO (respJson invalidResponse) "details" = none ∧
       invalidResponse.status = 400) ∧
    (promptStage body t = .built p →
       handler "POST" body none t oracle = missingKeyResponse ∧
       respJson missingKeyResponse = none ∧
       missingKeyResponse.status = 500) ∧
    (promptStage body t = .built p → k ≠ "" → oracle p = .error msg →
       handler "POST" body (some k) t oracle = catchResponse msg ∧
       jgetO (respJson (catchResponse msg)) "error" =
         some (.str "Failed to generate itinerary. Please try again.") ∧
       jgetO (respJson (catchResponse msg)) "details" = some (.str msg) ∧
       (catchResponse msg).status = 500) := by
  refine ⟨?_, ?_, ?_⟩
  · intro h
    refine ⟨?_, rfl, rfl, rfl⟩
    unfold handler
    rw [h]
    rfl
  · intro h
    refine ⟨?_, rfl, rfl⟩
    unfold handler
    rw [h]
    rfl
  · intro h hk ho
    refine ⟨?_, rfl, rfl, rfl⟩
    unfold handler
    rw [h]
    simp only [ho]
    simp [hk]

/-- C5 witness: the InvalidInput branch at the empty request body. -/
theorem c5_failure_shapes_witness :
    handler "POST" (.obj []) (some "key") t0 (constOracle "x") = invalidResponse :=
  ((c5_failure_shapes (.obj []) t0 "key" "" "" (constOracle "x")).1 rfl).1

/-- C5 counterexample: the 400 InvalidInput body has no `details` field,
and the missing-API-key 500 has no JSON body at all — both contradict the
claimed uniform error/details JSON shape. -/
theorem c5_counterexample :
    (handler "POST" (.obj []) (some "key") t0 (constOracle "x")).status = 400 ∧
    jgetO (respJson (handler "POST" (.obj []) (some "key") t0 (constOracle "x"))) "details" = none ∧
    (handler "POST" (.obj [("naturalLanguageQuery", .str "go to Rome")]) none t0 (constOracle "x")).status = 500 ∧
    respJson (handler "POST" (.obj [("naturalLanguageQuery", .str "go to Rome")]) none t0 (constOracle "x")) = none :=
  ⟨rfl, rfl, rfl, rfl⟩

/-- C6 (amended): any oracle text that cannot be parsed as a structured
value makes the pipeline respond with the HTTP 500 error/details body —
never a partially-defaulted itinerary.  (Total unparseability is however
not the only fatal condition at the normalization layer: see the
counterexample, where a parseable document throws in the cleaner.) -/
theorem c6_unparseable (text msg : String)
    (h : parseJson (cleanJsonString text) = .error msg) :
    processOracleText text = catchResponse msg ∧
    (processOracleText text).status = 500 ∧
    jgetO (respJson (processOracleText text)) "details" = some (.str msg) ∧
    jgetO (respJson (processOracleText text)) "days" = none := by
  have hp : processOracleText text = catchResponse msg := by
    unfold processOracleText
    rw [h]
  exact ⟨hp, by rw [hp]; rfl, by rw [hp]; rfl, by rw [hp]; rfl⟩

/-- C6 witness: the oracle text of the total-parse-failure scenario. -/
theorem c6_unparseable_witness :
    processOracleText "Sorry, I cannot help with that." =
      catchResponse "Unexpected token in JSON" :=
  (c6_unparseable "Sorry, I cannot help with that." "Unexpected token in JSON" rfl).1

/-- C6 counterexample to the only-fatal-condition clause: this oracle
text parses fine, yet normalization throws (truthy primitive where the
`emergencyInformation` object is expected) and the pipeline returns the
same 500 catch response — unparseability is not the only fatal condition
at the normalization layer. -/
theorem c6_counterexample :
    parseJson badEmergencyText = .ok (.obj [("emergencyInformation", .str "911")]) ∧
    cleanItineraryForFrontend (.obj [("emergencyInformation", .str "911")]) = none ∧
    processOracleText badEmergencyText = catchResponse typeErrorMessage :=
  ⟨rfl, rfl, rfl⟩

/-- C8 (amended): the prompt stage is deterministic given the current
date, and is date-independent whenever the preferences carry a truthy
`startDate` or the request has no truthy `preferences` (the
naturalLanguageQuery branch reads no date); but when `startDate` is
absent the preferences branch embeds `new Date()`, so the builder is not
a pure function of the request alone (see the counterexample). -/
theorem c8_date_dependence (body prefs : Json) (t1 t2 : JsDate) :
    (jget body "preferences" = some prefs → truthy prefs = true →
     truthyO (jget prefs "startDate") = true →
     promptStage body t1 = promptStage body t2) ∧
    (truthyO (jget body "preferences") = false →
     promptStage body t1 = promptStage body t2) := by
  constructor
  · intro hgp htr hsd
    have hn : body ≠ .null := by
      intro h
      subst h
      simp [jget] at hgp
    unfold promptStage
    rw [jgetX_ne_null body "preferences" hn, hgp]
    have hsc : startDateClause (jget prefs "startDate") t1 =
        startDateClause (jget prefs "startDate") t2 := by
      unfold startDateClause
      simp [hsd]
    have hpp : prefsPrompt prefs t1 = prefsPrompt prefs t2 := by
      unfold prefsPrompt
      simp only [hsc]
    simp only [hpp]
  · intro hp
    by_cases hn : body = .null
    · subst hn
      rfl
    · unfold promptStage
      rw [jgetX_ne_null body "preferences" hn]
      cases hgp : jget body "preferences" with
      | none => rfl
      | some p =>
          rw [hgp] at hp
          simp only [truthyO] at hp
          simp [hp]

/-- C8 witness: with an explicit startDate the prompt stage gives the
same directive on two different current dates. -/
theorem c8_date_dependence_witness :
    promptStage (.obj [("preferences", datedPrefs)]) ⟨2025, 0, 1⟩ =
      promptStage (.obj [("preferences", datedPrefs)]) ⟨2026, 0, 1⟩ :=
  (c8_date_dependence (.obj [("preferences", datedPrefs)]) datedPrefs
    ⟨2025, 0, 1⟩ ⟨2026, 0, 1⟩).1 rfl rfl rfl

/-- C8 counterexample: with `startDate` absent, the very same request
yields different directives on different current dates — the builder
reads ambient state (`new Date()`), so it is not a pure function of the
request input. -/
theorem c8_counterexample :
    promptStage (.obj [("preferences", noDatePrefs)]) ⟨2025, 0, 1⟩ ≠
      promptStage (.obj [("preferences", noDatePrefs)]) ⟨2026, 0, 1⟩ := by
  set_option maxRecDepth 100000 in decide

/-- C9 (amended): for every parsed activity object the cleaner succeeds
and leaves `type` as the original value when truthy, defaulting it to the
string "N/A" (not "flexible") when absent or falsy — no
indoor/outdoor/flexible enumeration is enforced anywhere. -/
theorem c9_type_default (a : Json) (h : isObjB a = true) :
    ∃ w, cleanActivity a = some w ∧
      jget w "type" = some (jsOr (jget a "type") (.str "N/A")) := by
  cases a with
  | obj kvs =>
      obtain ⟨kvs', heq, hmem, _⟩ := defaultFields_spec activityDefaults kvs (by decide)
      refine ⟨.obj kvs', heq, ?_⟩
      have ht := hmem ("type", .str "N/A") (by simp [activityDefaults])
      simpa [jget] using ht
  | null => simp [isObjB] at h
  | bool b => simp [isObjB] at h
  | num n => simp [isObjB] at h
  | str s => simp [isObjB] at h
  | arr xs => simp [isObjB] at h

/-- C9 witness: the empty activity object gets type "N/A". -/
theorem c9_type_default_witness :
    jgetO (cleanActivity (.obj [])) "type" = some (.str "N/A") := by
  obtain ⟨w, hw, ht⟩ := c9_type_default (.obj []) rfl
  simp only [jgetO, hw]
  exact ht

/-- C9 counterexample: inside the full normalizer, an unrecognized
activity type ("banana") is passed through unchanged and an absent type
becomes "N/A" — neither is in the indoor/outdoor/flexible enumeration
and nothing defaults to "flexible". -/
theorem c9_counterexample :
    jgetO (jidx (jgetO (jidx (jgetO (cleanItineraryForFrontend bananaItin) "days") 0)
        "activities") 0) "type" = some (.str "banana") ∧
    jgetO (jidx (jgetO (jidx (jgetO (cleanItineraryForFrontend emptyActivityItin) "days") 0)
        "activities") 0) "type" = some (.str "N/A") ∧
    ("banana" ≠ "indoor" ∧ "banana" ≠ "outdoor" ∧ "banana" ≠ "flexible" ∧
     "N/A" ≠ "flexible") :=
  ⟨rfl, rfl, by decide⟩

/-- C10: when the sanitized oracle text parses to the JSON literal
`null`, the normalizer returns `null` rather than a defaulted
CanonicalItinerary, and the pipeline responds HTTP 200 with body `null` —
neither a MalformedPayload-style 500 nor a value of the guaranteed
output shape. -/
theorem c10_null_document (text : String)
    (h : parseJson (cleanJsonString text) = .ok .null) :
    cleanItineraryForFrontend .null = some .null ∧
    processOracleText text = ⟨200, .jsonBody .null⟩ ∧
    goodItinerary .null = false := by
  refine ⟨rfl, ?_, rfl⟩
  unfold processOracleText
  rw [h]
  rfl

/-- C10 witness: the literal oracle text "null". -/
theorem c10_null_document_witness :
    processOracleText "null" = ⟨200, .jsonBody .null⟩ :=
  (c10_null_document "null" rfl).2.1

/-! Lemmas about `firstIdx`, leading to the sanitizer properties. -/

theorem firstIdx_some_pfx {pat : List Char} :
    ∀ {l : List Char} {j : Nat}, firstIdx pat l = some j → pat <+: l.drop j := by
  intro l
  induction l with
  | nil =>
      intro j h
      simp only [firstIdx] at h
      by_cases he : pat.isEmpty = true
      · rw [if_pos he] at h
        cases h
        have : pat = [] := by simpa [List.isEmpty_iff] using he
        simp [this]
      · rw [if_neg he] at h
        cases h
  | cons c rest ih =>
      intro j h
      simp only [firstIdx] at h
      by_cases hp : pat.isPrefixOf (c :: rest) = true
      · rw [if_pos hp] at h
        cases h
        simpa using (List.isPrefixOf_iff_prefix).mp hp
      · rw [if_neg hp] at h
        obtain ⟨j', hj', hjj⟩ := Option.map_eq_some'.mp h
        subst hjj
        simpa using ih hj'

theorem firstIdx_min {pat : List Char} :
    ∀ {l : List Char} {j : Nat}, firstIdx pat l = some j →
      ∀ k, k < j → ¬ (pat <+: l.drop k) := by
  intro l
  induction l with
  | nil =>
      intro j h k hk
      simp only [firstIdx] at h
      by_cases he : pat.isEmpty = true
      · rw [if_pos he] at h
        cases h
        exact absurd hk (by omega)
      · rw [if_neg he] at h
        cases h
  | cons c rest ih =>
      intro j h k hk
      simp only [firstIdx] at h
      by_cases hp : pat.isPrefixOf (c :: rest) = true
      · rw [if_pos hp] at h
        cases h
        exact absurd hk (by omega)
      · rw [if_neg hp] at h
        obtain ⟨j', hj', hjj⟩ := Option.map_eq_some'.mp h
        subst hjj
        cases k with
        | zero =>
            intro hpre
            exact hp ((List.isPrefixOf_iff_prefix).mpr (by simpa using hpre))
        | succ k' =>
            simpa using ih hj' k' (by omega)

theorem firstIdx_none_pfx {pat : List Char} :
    ∀ {l : List Char}, firstIdx pat l = none → ∀ k, ¬ (pat <+: l.drop k) := by
  intro l
  induction l with
  | nil =>
      intro h k hpre
      simp only [firstIdx] at h
      by_cases he : pat.isEmpty = true
      · rw [if_pos he] at h
        cases h
      · rw [if_neg he] at h
        have hnil : pat = [] := List.prefix_nil.mp (by simpa using hpre)
        rw [hnil] at he
        exact he rfl
  | cons c rest ih =>
      intro h k
      simp only [firstIdx] at h
      by_cases hp : pat.isPrefixOf (c :: rest) = true
      · rw [if_pos hp] at h
        cases h
      · rw [if_neg hp] at h
        have hrest : firstIdx pat rest = none := by
          cases hfi : firstIdx pat rest with
          | none => rfl
          | some x => rw [hfi] at h; simp at h
        cases k with
        | zero =>
            intro hpre
            exact hp ((List.isPrefixOf_iff_prefix).mpr (by simpa using hpre))
        | succ k' =>
            simpa using ih hrest k'

theorem firstIdx_none_of (pat l : List Char)
    (h : ∀ k, ¬ (pat <+: l.drop k)) : firstIdx pat l = none := by
  cases hfi : firstIdx pat l with
  | none => rfl
  | some j => exact absurd (firstIdx_some_pfx hfi) (h j)

theorem drop_take_comm (m j : Nat) (l : List Char) :
    (l.take j).drop m = (l.drop m).take (j - m) := by
  rcases le_or_lt m j with hle | hlt
  · have h := List.take_drop (α := Char) m (j - m) l
    rw [Nat.add_sub_cancel' hle] at h
    exact h.symm
  · have h1 : (l.take j).drop m = [] :=
      List.drop_eq_nil_iff.mpr (le_trans (List.length_take_le _ _) (Nat.le_of_lt hlt))
    have h2 : j - m = 0 := Nat.sub_eq_zero_of_le (Nat.le_of_lt hlt)
    rw [h1, h2]
    rfl

/-- The lazily-matched inner group of the fence regex contains no
occurrence of the closing delimiter: the group ends at the first one. -/
theorem no_close_in_inner {rest : List Char} {j : Nat}
    (h : firstIdx closePat rest = some j) (m : Nat) :
    ¬ (closePat <+: (rest.take j).drop m) := by
  intro hpre
  rcases le_or_lt j m with hle | hlt
  · have hnil : (rest.take j).drop m = [] :=
      List.drop_eq_nil_iff.mpr (le_trans (List.length_take_le _ _) hle)
    rw [hnil] at hpre
    exact absurd (List.prefix_nil.mp hpre) (by decide)
  · rw [drop_take_comm] at hpre
    exact firstIdx_min h m hlt (hpre.trans (List.take_prefix _ _))

/-- Idempotence of the fence-extraction on character lists. -/
theorem cleanChars_idem (s : List Char) : cleanChars (cleanChars s) = cleanChars s := by
  cases h1 : firstIdx openPat s with
  | none =>
      have hs : cleanChars s = s := by
        simp only [cleanChars, h1]
      rw [hs]
      exact hs
  | some i =>
      cases h2 : firstIdx closePat ((s.drop i).drop openPat.length) with
      | none =>
          have hs : cleanChars s = s := by
            simp only [cleanChars, h1, h2]
          rw [hs]
          exact hs
      | some j =>
          have hs : cleanChars s = ((s.drop i).drop openPat.length).take j := by
            simp only [cleanChars, h1, h2]
          rw [hs]
          cases h3 : firstIdx openPat (((s.drop i).drop openPat.length).take j) with
          | none =>
              simp only [cleanChars, h3]
          | some i' =>
              have h4 : firstIdx closePat
                  (((((s.drop i).drop openPat.length).take j).drop i').drop openPat.length)
                  = none := by
                apply firstIdx_none_of
                intro k hpre
                rw [List.drop_drop, List.drop_drop] at hpre
                exact no_close_in_inner h2 _ hpre
              simp only [cleanChars, h3, h4]

/-- Decomposition of a fenced input: the text is its prefix, the opening
delimiter, the extracted group, the closing delimiter, and the rest. -/
theorem cleanChars_extract {s : List Char} {i j : Nat}
    (hi : firstIdx openPat s = some i)
    (hj : firstIdx closePat ((s.drop i).drop openPat.length) = some j) :
    s.take i ++ openPat ++ cleanChars s ++ closePat
      ++ ((((s.drop i).drop openPat.length).drop j).drop closePat.length) = s := by
  have hcs : cleanChars s = ((s.drop i).drop openPat.length).take j := by
    simp only [cleanChars, hi, hj]
  have e1 : openPat ++ (s.drop i).drop openPat.length = s.drop i :=
    List.prefix_iff_eq_append.mp (firstIdx_some_pfx hi)
  have e2 : closePat ++ (((s.drop i).drop openPat.length).drop j).drop closePat.length
      = ((s.drop i).drop openPat.length).drop j :=
    List.prefix_iff_eq_append.mp (firstIdx_some_pfx hj)
  rw [hcs]
  simp only [List.append_assoc]
  rw [e2, List.take_append_drop, e1, List.take_append_drop]

/-- C7: the sanitizer is idempotent; when the text has no complete fence
it is returned unchanged (and the operation is total — it never fails);
when it has one, the result is exactly the inner content of the first
fenced block, as witnessed by the decomposition of the input around it. -/
theorem c7_sanitize_idempotent (s : String) :
    cleanJsonString (cleanJsonString s) = cleanJsonString s ∧
    (hasFence s = false → cleanJsonString s = s) ∧
    (hasFence s = true → ∃ pre post,
      s.data = pre ++ openPat ++ (cleanJsonString s).data ++ closePat ++ post) := by
  refine ⟨?_, ?_, ?_⟩
  · show String.mk (cleanChars (cleanChars s.data)) = String.mk (cleanChars s.data)
    exact congrArg String.mk (cleanChars_idem s.data)
  · intro hf
    have hcc : cleanChars s.data = s.data := by
      cases h1 : firstIdx openPat s.data with
      | none => simp only [cleanChars, h1]
      | some i =>
          cases h2 : firstIdx closePat ((s.data.drop i).drop openPat.length) with
          | none => simp only [cleanChars, h1, h2]
          | some j =>
              simp only [hasFence, h1, h2, Option.isSome_some] at hf
              exact Bool.noConfusion hf
    show String.mk (cleanChars s.data) = s
    rw [hcc]
  · intro hf
    cases h1 : firstIdx openPat s.data with
    | none =>
        simp only [hasFence, h1] at hf
        exact Bool.noConfusion hf
    | some i =>
        cases h2 : firstIdx closePat ((s.data.drop i).drop openPat.length) with
        | none =>
            simp only [hasFence, h1, h2, Option.isSome_none] at hf
            exact Bool.noConfusion hf
        | some j =>
            refine ⟨s.data.take i,
              (((s.data.drop i).drop openPat.length).drop j).drop closePat.length, ?_⟩
            exact (cleanChars_extract h1 h2).symm

/-- C7 witness: idempotence at a concrete fenced text, and the unchanged
result at a concrete fence-free text. -/
theorem c7_sanitize_idempotent_witness :
    cleanJsonString (cleanJsonString c4OracleText) = cleanJsonString c4OracleText ∧
    cleanJsonString "abc" = "abc" :=
  ⟨(c7_sanitize_idempotent c4OracleText).1,
   (c7_sanitize_idempotent "abc").2.1 rfl⟩

/-! Letter-pattern occurrence machinery for the directive-omission claim. -/

theorem containsSeg_iff (pat : List Char) :
    ∀ l : List Char, containsSeg pat l = true ↔ pat <:+: l := by
  intro l
  induction l with
  | nil =>
      simp [containsSeg, List.isEmpty_iff, List.infix_nil]
  | cons c rest ih =>
      simp [containsSeg, Bool.or_eq_true, List.isPrefixOf_iff_prefix, ih, List.infix_cons_iff]

theorem containsSeg_false_iff (pat l : List Char) :
    containsSeg pat l = false ↔ ¬ (pat <:+: l) := by
  constructor
  · intro h hinf
    rw [(containsSeg_iff pat l).mpr hinf] at h
    exact Bool.noConfusion h
  · intro h
    cases hc : containsSeg pat l with
    | false => rfl
    | true => exact absurd ((containsSeg_iff pat l).mp hc) h

/-- A nonempty all-letter pattern cannot occur in a letter-free text. -/
theorem seg_nonalpha_block {pat l : List Char} (hne : pat ≠ [])
    (hpat : ∀ c ∈ pat, c.isAlpha = true)
    (hl : ∀ c ∈ l, c.isAlpha = false) : ¬ (pat <:+: l) := by
  intro h
  obtain ⟨c, hc⟩ := List.exists_mem_of_ne_nil pat hne
  exact Bool.noConfusion ((hpat c hc).symm.trans (hl c (h.subset hc)))

/-- An all-letter pattern occurring in `a ++ (y :: b)` with `y` not a
letter lies wholly in `a` or wholly in `y :: b`: it cannot straddle the
junction, because it would have to contain `y`. -/
theorem seg_split_at_nonalpha {pat a b : List Char} {y : Char}
    (hpat : ∀ c ∈ pat, c.isAlpha = true)
    (hy : y.isAlpha = false)
    (h : pat <:+: a ++ (y :: b)) :
    pat <:+: a ∨ pat <:+: (y :: b) := by
  obtain ⟨s, t, hst⟩ := h
  rw [List.append_assoc] at hst
  rcases List.append_eq_append_iff.mp hst with ⟨u, hu1, hu2⟩ | ⟨u, hu1, hu2⟩
  · rcases List.append_eq_append_iff.mp hu2 with ⟨w, hw1, hw2⟩ | ⟨w, hw1, hw2⟩
    · left
      exact ⟨s, w, by rw [hu1, hw1, List.append_assoc]⟩
    · cases w with
      | nil =>
          left
          have hpu : pat = u := by simpa using hw1
          exact ⟨s, [], by rw [hu1, hpu]; simp⟩
      | cons w0 w1 =>
          exfalso
          have hw2' : y = w0 := by
            have hcons : y :: b = w0 :: (w1 ++ t) := by simpa using hw2
            injection hcons with hh _
          have hmem : w0 ∈ pat := by
            rw [hw1]
            simp
          have halpha := hpat w0 hmem
          rw [← hw2'] at halpha
          exact Bool.noConfusion (halpha.symm.trans hy)
  · right
    exact ⟨u, t, by rw [List.append_assoc]; exact hu2.symm⟩

/-- Junction split, with the right piece's head character exposed by
definitional unfolding at the call site. -/
theorem seg_split_head {pat a b b' : List Char} {y : Char}
    (hpat : ∀ c ∈ pat, c.isAlpha = true)
    (h : pat <:+: a ++ b)
    (hb : b = y :: b') (hy : y.isAlpha = false) :
    pat <:+: a ∨ pat <:+: b := by
  subst hb
  exact seg_split_at_nonalpha hpat hy h

/-- Junction split at a non-letter last character of the left piece
(by the mirror of `seg_split_at_nonalpha` through `reverse`). -/
theorem seg_split_after_nonalpha {pat a b : List Char} {x : Char}
    (hpat : ∀ c ∈ pat, c.isAlpha = true)
    (hx : x.isAlpha = false)
    (h : pat <:+: (a ++ [x]) ++ b) :
    pat <:+: (a ++ [x]) ∨ pat <:+: b := by
  have hrev : pat.reverse <:+: b.reverse ++ (x :: a.reverse) := by
    have h0 : pat.reverse <:+: ((a ++ [x]) ++ b).reverse := List.reverse_infix.mpr h
    simpa [List.reverse_append] using h0
  have hpat' : ∀ c ∈ pat.reverse, c.isAlpha = true := by
    intro c hc
    exact hpat c (List.mem_reverse.mp hc)
  rcases seg_split_at_nonalpha hpat' hx hrev with h' | h'
  · right
    exact List.reverse_infix.mp h'
  · left
    have h'' : pat.reverse <:+: (a ++ [x]).reverse := by
      simpa [List.reverse_append] using h'
    exact List.reverse_infix.mp h''

/-- Mirror of `seg_split_head` for the left piece's last character. -/
theorem seg_split_last {pat a a' b : List Char} {x : Char}
    (hpat : ∀ c ∈ pat, c.isAlpha = true)
    (h : pat <:+: a ++ b)
    (ha : a = a' ++ [x]) (hx : x.isAlpha = false) :
    pat <:+: a ∨ pat <:+: b := by
  subst ha
  exact seg_split_after_nonalpha hpat hx h

/-- Every character a decimal rendering produces is a digit, hence not a
letter. -/
theorem natToCharsAux_nonalpha : ∀ fuel n : Nat, ∀ c ∈ natToCharsAux fuel n,
    c.isAlpha = false := by
  intro fuel
  induction fuel with
  | zero =>
      intro n c hc
      simp [natToCharsAux] at hc
  | succ f ih =>
      intro n c hc
      simp only [natToCharsAux] at hc
      by_cases h10 : n < 10
      · rw [if_pos h10] at hc
        simp only [List.mem_singleton] at hc
        subst hc
        interval_cases n <;> decide
      · rw [if_neg h10] at hc
        rcases List.mem_append.mp hc with hmem | hmem
        · exact ih _ c hmem
        · simp only [List.mem_singleton] at hmem
          subst hmem
          have hm : n % 10 < 10 := Nat.mod_lt _ (by omega)
          generalize hg : n % 10 = m at hm ⊢
          interval_cases m <;> decide

theorem natToChars_nonalpha (n : Nat) : ∀ c ∈ natToChars n, c.isAlpha = false :=
  natToCharsAux_nonalpha (n + 1) n

theorem intToChars_nonalpha (i : Int) : ∀ c ∈ intToChars i, c.isAlpha = false := by
  intro c hc
  unfold intToChars at hc
  by_cases hneg : i < 0
  · rw [if_pos hneg] at hc
    rcases List.mem_cons.mp hc with hh | hh
    · subst hh
      decide
    · exact natToChars_nonalpha _ c hh
  · rw [if_neg hneg] at hc
    exact natToChars_nonalpha _ c hc

theorem intToChars_ne_nil (i : Int) : intToChars i ≠ [] := by
  unfold intToChars natToChars natToCharsAux
  by_cases hneg : i < 0
  · simp [hneg]
  · simp only [hneg, if_false]
    by_cases h10 : i.natAbs < 10 <;> simp [h10]

theorem pad2_nonalpha (n : Nat) : ∀ c ∈ (pad2 n).data, c.isAlpha = false := by
  intro c hc
  unfold pad2 at hc
  by_cases h : n < 10
  · rw [if_pos h] at hc
    rw [String.data_append] at hc
    rcases List.mem_append.mp hc with h0 | h0
    · have hz : c = '0' := by
        have : ("0" : String).data = ['0'] := rfl
        rw [this] at h0
        simpa using h0
      subst hz
      decide
    · exact natToChars_nonalpha n c h0
  · rw [if_neg h] at hc
    exact natToChars_nonalpha n c hc

theorem defaultStartDate_nonalpha (t : JsDate) :
    ∀ c ∈ (defaultStartDate t).data, c.isAlpha = false := by
  intro c hc
  unfold defaultStartDate at hc
  simp only [String.data_append] at hc
  rcases List.mem_append.mp hc with hc1 | hc1
  · rcases List.mem_append.mp hc1 with hc2 | hc2
    · rcases List.mem_append.mp hc2 with hc3 | hc3
      · rcases List.mem_append.mp hc3 with hc4 | hc4
        · exact natToChars_nonalpha _ c hc4
        · have hd : c = '-' := by simpa using hc4
          subst hd
          decide
      · exact pad2_nonalpha _ c hc3
    · have hd : c = '-' := by simpa using hc2
      subst hd
      decide
  · exact pad2_nonalpha _ c hc1

theorem defaultStartDate_ne_nil (t : JsDate) : (defaultStartDate t).data ≠ [] := by
  unfold defaultStartDate
  simp only [String.data_append]
  intro h
  rcases List.append_eq_nil.mp h with ⟨h1, _⟩
  rcases List.append_eq_nil.mp h1 with ⟨h2, _⟩
  rcases List.append_eq_nil.mp h2 with ⟨h3, _⟩
  rcases List.append_eq_nil.mp h3 with ⟨h4, _⟩
  exact intToChars_ne_nil (Int.ofNat t.year) (by simpa [natToString, intToChars] using h4)

theorem data_mk (l : List Char) : (String.mk l).data = l := rfl

theorem data_empty : ("" : String).data = [] := rfl

set_option maxRecDepth 40000 in
/-- The prompt stage on a destination+duration-only request builds the
user part decomposed by `minimalUserChars`, followed by the schema
suffix. -/
theorem minimal_promptStage (dest : String) (dur : Int) (t : JsDate) :
    ∃ p, promptStage (.obj [("preferences",
        .obj [("destination", .str dest), ("duration", .num dur)])]) t
        = .built (p ++ jsonSuffix) ∧
      p.data = minimalUserChars dest dur t := by
  refine ⟨_, rfl, ?_⟩
  simp [basePrompt, styleClause, budgetClause, groupClause, accomClause,
    startDateClause, requestsClause, jsToStringO, jsToString, jget, getKey,
    truthyO, truthy, minimalUserChars, segTripTo, segFor, segDays, segStyle,
    segBudget, segAround, segEnsure, String.data_append, List.append_assoc,
    data_mk, data_empty]

/-- An all-letter pattern absent from the destination text and from each
constant segment does not occur anywhere in the user part of the minimal
directive: it cannot straddle any junction (every junction boundary is a
non-letter character) and cannot sit inside the digit-only duration or
date renderings. -/
theorem no_pat_in_minimal_user {pat : List Char} (dest : String) (dur : Int) (t : JsDate)
    (hpat : ∀ c ∈ pat, c.isAlpha = true) (hne : pat ≠ [])
    (hdest : ¬ pat <:+: dest.data)
    (h0 : ¬ pat <:+: segTripTo.data) (h1 : ¬ pat <:+: segFor.data)
    (h2 : ¬ pat <:+: segDays.data) (h3 : ¬ pat <:+: segStyle.data)
    (h4 : ¬ pat <:+: segBudget.data) (h5 : ¬ pat <:+: segAround.data)
    (h6 : ¬ pat <:+: segEnsure.data) :
    ¬ pat <:+: minimalUserChars dest dur t := by
  intro h
  unfold minimalUserChars at h
  rw [← List.append_assoc] at h
  rcases seg_split_head hpat h rfl (by decide) with h | h
  · rcases seg_split_last hpat h
        (show segTripTo.data =
          ("Generate a highly detailed travel itinerary for a trip to" : String).data ++ [' ']
          from rfl) (by decide) with h | h
    · exact h0 h
    · exact hdest h
  · rw [← List.append_assoc] at h
    rcases seg_split_head hpat h rfl (by decide) with h | h
    · rcases seg_split_last hpat h
          (show segFor.data = (" for" : String).data ++ [' '] from rfl) (by decide) with h | h
      · exact h1 h
      · exact seg_nonalpha_block hne hpat (intToChars_nonalpha dur) h
    · rcases seg_split_head hpat h rfl (by decide) with h | h
      · exact h2 h
      · rcases seg_split_head hpat h rfl (by decide) with h | h
        · exact h3 h
        · rcases seg_split_head hpat h rfl (by decide) with h | h
          · exact h4 h
          · rw [← List.append_assoc] at h
            rcases seg_split_head hpat h rfl (by decide) with h | h
            · rcases seg_split_last hpat h
                  (show segAround.data = (" The trip starts on a date around" : String).data ++ [' ']
                    from rfl) (by decide) with h | h
              · exact h5 h
              · exact seg_nonalpha_block hne hpat (defaultStartDate_nonalpha t) h
            · exact h6 h

/-- Extension of the pattern-absence argument to the full directive (user
part plus schema suffix), each suffix chunk beginning with a newline. -/
theorem no_pat_in_minimal_full {pat : List Char} (dest : String) (dur : Int) (t : JsDate)
    (hpat : ∀ c ∈ pat, c.isAlpha = true) (hne : pat ≠ [])
    (hdest : ¬ pat <:+: dest.data)
    (h0 : ¬ pat <:+: segTripTo.data) (h1 : ¬ pat <:+: segFor.data)
    (h2 : ¬ pat <:+: segDays.data) (h3 : ¬ pat <:+: segStyle.data)
    (h4 : ¬ pat <:+: segBudget.data) (h5 : ¬ pat <:+: segAround.data)
    (h6 : ¬ pat <:+: segEnsure.data)
    (h7 : ¬ pat <:+: jsonSuffixA.data) (h8 : ¬ pat <:+: jsonSuffixB.data)
    (h9 : ¬ pat <:+: jsonSuffixC.data) :
    ¬ pat <:+: (minimalUserChars dest dur t ++ jsonSuffix.data) := by
  intro h
  have hsuf : jsonSuffix.data = jsonSuffixA.data ++ (jsonSuffixB.data ++ jsonSuffixC.data) := by
    simp [jsonSuffix, String.data_append, List.append_assoc]
  rw [hsuf] at h
  rcases seg_split_head hpat h rfl (by decide) with h | h
  · exact no_pat_in_minimal_user dest dur t hpat hne hdest h0 h1 h2 h3 h4 h5 h6 h
  · rcases seg_split_head hpat h rfl (by decide) with h | h
    · exact h7 h
    · rcases seg_split_head hpat h rfl (by decide) with h | h
      · exact h8 h
      · exact h9 h

set_option maxRecDepth 1000000 in
/-- C3 (amended): for a StructuredPreferences input carrying only
destination and duration (the destination text itself being free of the
relevant words), the produced directive never mentions accommodation or
interests anywhere, and never contains "none" or "undefined"; the
user-intent part contains no "null" either, and no absent field is
rendered at all — the only non-constant parts of the directive are the
destination, the digits of the duration and the digits of the default
start date.  The word "budget", however, does appear in the fixed text
(see the counterexample), so the original claim fails. -/
theorem c3_directive_omission (dest : String) (dur : Int) (t : JsDate)
    (ha : containsSeg accommodationPat dest.data = false)
    (hi : containsSeg interestPat dest.data = false)
    (hn : containsSeg nonePat dest.data = false)
    (hu : containsSeg undefinedPat dest.data = false)
    (hnl : containsSeg nullPat dest.data = false) :
    ∃ p, promptStage (.obj [("preferences",
        .obj [("destination", .str dest), ("duration", .num dur)])]) t
        = .built (p ++ jsonSuffix) ∧
      containsSeg accommodationPat (p ++ jsonSuffix).data = false ∧
      containsSeg interestPat (p ++ jsonSuffix).data = false ∧
      containsSeg nonePat (p ++ jsonSuffix).data = false ∧
      containsSeg undefinedPat (p ++ jsonSuffix).data = false ∧
      containsSeg nullPat p.data = false := by
  obtain ⟨p, hstage, hdata⟩ := minimal_promptStage dest dur t
  have hfull : (p ++ jsonSuffix).data = minimalUserChars dest dur t ++ jsonSuffix.data := by
    rw [String.data_append, hdata]
  refine ⟨p, hstage, ?_, ?_, ?_, ?_, ?_⟩
  · rw [hfull, containsSeg_false_iff]
    exact no_pat_in_minimal_full dest dur t (by decide) (by decide)
      ((containsSeg_false_iff _ _).mp ha)
      ((containsSeg_false_iff _ _).mp (by decide)) ((containsSeg_false_iff _ _).mp (by decide))
      ((containsSeg_false_iff _ _).mp (by decide)) ((containsSeg_false_iff _ _).mp (by decide))
      ((containsSeg_false_iff _ _).mp (by decide)) ((containsSeg_false_iff _ _).mp (by decide))
      ((containsSeg_false_iff _ _).mp (by decide)) ((containsSeg_false_iff _ _).mp (by decide))
      ((containsSeg_false_iff _ _).mp (by decide)) ((containsSeg_false_iff _ _).mp (by decide))
  · rw [hfull, containsSeg_false_iff]
    exact no_pat_in_minimal_full dest dur t (by decide) (by decide)
      ((containsSeg_false_iff _ _).mp hi)
      ((containsSeg_false_iff _ _).mp (by decide)) ((containsSeg_false_iff _ _).mp (by decide))
      ((containsSeg_false_iff _ _).mp (by decide)) ((containsSeg_false_iff _ _).mp (by decide))
      ((containsSeg_false_iff _ _).mp (by decide)) ((containsSeg_false_iff _ _).mp (by decide))
      ((containsSeg_false_iff _ _).mp (by decide)) ((containsSeg_false_iff _ _).mp (by decide))
      ((containsSeg_false_iff _ _).mp (by decide)) ((containsSeg_false_iff _ _).mp (by decide))
  · rw [hfull, containsSeg_false_iff]
    exact no_pat_in_minimal_full dest dur t (by decide) (by decide)
      ((containsSeg_false_iff _ _).mp hn)
      ((containsSeg_false_iff _ _).mp (by decide)) ((containsSeg_false_iff _ _).mp (by decide))
      ((containsSeg_false_iff _ _).mp (by decide)) ((containsSeg_false_iff _ _).mp (by decide))
      ((containsSeg_false_iff _ _).mp (by decide)) ((containsSeg_false_iff _ _).mp (by decide))
      ((containsSeg_false_iff _ _).mp (by decide)) ((containsSeg_false_iff _ _).mp (by decide))
      ((containsSeg_false_iff _ _).mp (by decide)) ((containsSeg_false_iff _ _).mp (by decide))
  · rw [hfull, containsSeg_false_iff]
    exact no_pat_in_minimal_full dest dur t (by decide) (by decide)
      ((containsSeg_false_iff _ _).mp hu)
      ((containsSeg_false_iff _ _).mp (by decide)) ((containsSeg_false_iff _ _).mp (by decide))
      ((containsSeg_false_iff _ _).mp (by decide)) ((containsSeg_false_iff _ _).mp (by decide))
      ((containsSeg_false_iff _ _).mp (by decide)) ((containsSeg_false_iff _ _).mp (by decide))
      ((containsSeg_false_iff _ _).mp (by decide)) ((containsSeg_false_iff _ _).mp (by decide))
      ((containsSeg_false_iff _ _).mp (by decide)) ((containsSeg_false_iff _ _).mp (by decide))
  · rw [hdata, containsSeg_false_iff]
    exact no_pat_in_minimal_user dest dur t (by decide) (by decide)
      ((containsSeg_false_iff _ _).mp hnl)
      ((containsSeg_false_iff _ _).mp (by decide)) ((containsSeg_false_iff _ _).mp (by decide))
      ((containsSeg_false_iff _ _).mp (by decide)) ((containsSeg_false_iff _ _).mp (by decide))
      ((containsSeg_false_iff _ _).mp (by decide)) ((containsSeg_false_iff _ _).mp (by decide))
      ((containsSeg_false_iff _ _).mp (by decide))

/-- C3 witness: the Lisbon destination satisfies every hypothesis. -/
theorem c3_directive_omission_witness :
    ∃ p, promptStage (.obj [("preferences",
        .obj [("destination", .str "Lisbon"), ("duration", .num 2)])]) t0
        = .built (p ++ jsonSuffix) ∧
      containsSeg accommodationPat (p ++ jsonSuffix).data = false ∧
      containsSeg interestPat (p ++ jsonSuffix).data = false ∧
      containsSeg nonePat (p ++ jsonSuffix).data = false ∧
      containsSeg undefinedPat (p ++ jsonSuffix).data = false ∧
      containsSeg nullPat p.data = false :=
  c3_directive_omission "Lisbon" 2 t0 (by decide) (by decide) (by decide)
    (by decide) (by decide)

/-- C3 counterexample: the directive for a destination+duration-only
request does mention the word "budget" — the fixed infer-a-budget clause
and the schema suffix are always appended — so the claim that budget is
not mentioned at all is false. -/
theorem c3_counterexample :
    ∃ p, promptStage (.obj [("preferences", noDatePrefs)]) t0 = .built p ∧
      containsSeg budgetPat p.data = true := by
  refine ⟨_, rfl, ?_⟩
  set_option maxRecDepth 100000 in decide

/-! Helper lemmas for the normalizer's shape guarantee (claim C1). -/

theorem isStr_jsOr (o : Option Json) (s : String) (ho : okStr o = true) :
    isStrB (jsOr o (.str s)) = true := by
  cases o with
  | none => rfl
  | some v =>
      by_cases ht : truthy v = true
      · simp only [okStr, okField, ht, Bool.not_true, Bool.false_or] at ho
        cases v <;> simp_all [likeDefault, isStrB, jsOr]
      · simp only [Bool.not_eq_true] at ht
        simp [jsOr, ht, isStrB]

theorem isNum_jsOr (o : Option Json) (n : Int) (ho : okNum o = true) :
    isNumB (jsOr o (.num n)) = true := by
  cases o with
  | none => rfl
  | some v =>
      by_cases ht : truthy v = true
      · simp only [okNum, okField, ht, Bool.not_true, Bool.false_or] at ho
        cases v <;> simp_all [likeDefault, isNumB, jsOr]
      · simp only [Bool.not_eq_true] at ht
        simp [jsOr, ht, isNumB]

theorem strAt_eq {kvs : List (String × Json)} {k : String} {v : Json}
    (hg : getKey kvs k = some v) (hv : isStrB v = true) : strAt kvs k = true := by
  unfold strAt
  rw [hg]
  cases v <;> simp_all [isStrB]

theorem numAt_eq {kvs : List (String × Json)} {k : String} {v : Json}
    (hg : getKey kvs k = some v) (hv : isNumB v = true) : numAt kvs k = true := by
  unfold numAt
  rw [hg]
  cases v <;> simp_all [isNumB]

theorem arrAt_eq {kvs : List (String × Json)} {k : String} {v : Json}
    (hg : getKey kvs k = some v) (hv : isArrB v = true) : arrAt kvs k = true := by
  unfold arrAt
  rw [hg]
  cases v <;> simp_all [isArrB]

theorem ensureArray_isArr (o : Option Json) : isArrB (ensureArray o) = true := by
  unfold ensureArray
  cases o with
  | none => rfl
  | some v => cases v <;> rfl

theorem strAt_default {kvs kvs' : List (String × Json)} {k : String} {d : String}
    (hmem : getKey kvs' k = some (jsOr (getKey kvs k) (.str d)))
    (hok : okStr (getKey kvs k) = true) : strAt kvs' k = true :=
  strAt_eq hmem (isStr_jsOr _ _ hok)

theorem numAt_default {kvs kvs' : List (String × Json)} {k : String} {d : Int}
    (hmem : getKey kvs' k = some (jsOr (getKey kvs k) (.num d)))
    (hok : okNum (getKey kvs k) = true) : numAt kvs' k = true :=
  numAt_eq hmem (isNum_jsOr _ _ hok)

/-- A well-typed parsed activity cleans to a fully string-populated
activity. -/
theorem cleanActivity_good {a : Json} (hwt : activityWT a = true) :
    ∃ w, cleanActivity a = some w ∧ goodActivity w = true := by
  cases a with
  | obj kvs =>
      obtain ⟨kvs', heq, hmem, _⟩ := defaultFields_spec activityDefaults kvs (by decide)
      refine ⟨.obj kvs', heq, ?_⟩
      simp only [activityWT] at hwt
      have hall := List.all_eq_true.mp hwt
      simp only [goodActivity, Bool.and_eq_true]
      refine ⟨⟨⟨⟨⟨⟨⟨⟨?_, ?_⟩, ?_⟩, ?_⟩, ?_⟩, ?_⟩, ?_⟩, ?_⟩, ?_⟩ <;>
        first
        | exact strAt_default (hmem ("name", .str "N/A") (by simp [activityDefaults]))
            (hall ("name", .str "N/A") (by simp [activityDefaults]))
        | exact strAt_default (hmem ("category", .str "N/A") (by simp [activityDefaults]))
            (hall ("category", .str "N/A") (by simp [activityDefaults]))
        | exact strAt_default (hmem ("type", .str "N/A") (by simp [activityDefaults]))
            (hall ("type", .str "N/A") (by simp [activityDefaults]))
        | exact strAt_default (hmem ("description", .str "N/A") (by simp [activityDefaults]))
            (hall ("description", .str "N/A") (by simp [activityDefaults]))
        | exact strAt_default (hmem ("duration", .str "N/A") (by simp [activityDefaults]))
            (hall ("duration", .str "N/A") (by simp [activityDefaults]))
        | exact strAt_default (hmem ("location", .str "N/A") (by simp [activityDefaults]))
            (hall ("location", .str "N/A") (by simp [activityDefaults]))
        | exact strAt_default (hmem ("cost", .str "N/A") (by simp [activityDefaults]))
            (hall ("cost", .str "N/A") (by simp [activityDefaults]))
        | exact strAt_default (hmem ("rating", .str "N/A") (by simp [activityDefaults]))
            (hall ("rating", .str "N/A") (by simp [activityDefaults]))
        | exact strAt_default (hmem ("photos", .str "N/A") (by simp [activityDefaults]))
            (hall ("photos", .str "N/A") (by simp [activityDefaults]))
  | null => simp [activityWT] at hwt
  | bool b => simp [activityWT] at hwt
  | num n => simp [activityWT] at hwt
  | str s => simp [activityWT] at hwt
  | arr xs => simp [activityWT] at hwt

/-- Mapping the activity cleaner over well-typed activities succeeds and
yields good activities, in order. -/
theorem mapM_cleanActivity {xs : List Json} (h : xs.all activityWT = true) :
    ∃ ys, mapClean cleanActivity xs = some ys ∧ ys.all goodActivity = true := by
  induction xs with
  | nil => exact ⟨[], rfl, rfl⟩
  | cons x rest ih =>
      simp only [List.all_cons, Bool.and_eq_true] at h
      obtain ⟨w, hw, hgw⟩ := cleanActivity_good h.1
      obtain ⟨ys, hys, hgys⟩ := ih h.2
      refine ⟨w :: ys, ?_, ?_⟩
      · simp [mapClean, hw, hys]
      · simp [List.all_cons, hgw, hgys]

/-- The `day.activities` handling always yields an array of good
activities on a well-typed slot. -/
theorem acts_clean (o : Option Json) (h : actsWT o = true) :
    ∃ ys, cleanActs o = some (.arr ys) ∧ ys.all goodActivity = true := by
  match o with
  | none => exact ⟨[], rfl, rfl⟩
  | some (.arr xs) =>
      simp only [actsWT] at h
      obtain ⟨ys, hys, hgys⟩ := mapM_cleanActivity h
      exact ⟨ys, by simp [cleanActs, hys], hgys⟩
  | some .null => exact ⟨[], rfl, rfl⟩
  | some (.bool b) => exact ⟨[], rfl, rfl⟩
  | some (.num n) => exact ⟨[], rfl, rfl⟩
  | some (.str s) => exact ⟨[], rfl, rfl⟩
  | some (.obj kvs) => exact ⟨[], rfl, rfl⟩

/-- Cleaning the `dailyWeather` slot of a well-typed day always yields a
fully string-populated weather object. -/
theorem weather_clean (o : Option Json) (hw : weatherWT o = true) :
    ∃ wk, defaultFields [("tempRange", .str "N/A"), ("condition", .str "N/A"),
        ("weatherTip", .str "N/A")] (jsOr o (.obj [])) = some (.obj wk) ∧
      goodWeather (.obj wk) = true := by
  have hobj : ∀ wkvs : List (String × Json), okStr (getKey wkvs "tempRange") = true →
      okStr (getKey wkvs "condition") = true → okStr (getKey wkvs "weatherTip") = true →
      ∃ wk, defaultFields [("tempRange", .str "N/A"), ("condition", .str "N/A"),
          ("weatherTip", .str "N/A")] (.obj wkvs) = some (.obj wk) ∧
        goodWeather (.obj wk) = true := by
    intro wkvs ht hc hp
    obtain ⟨wk, heq, hmem, _⟩ := defaultFields_spec
      [("tempRange", .str "N/A"), ("condition", .str "N/A"), ("weatherTip", .str "N/A")]
      wkvs (by decide)
    refine ⟨wk, heq, ?_⟩
    simp only [goodWeather, Bool.and_eq_true]
    exact ⟨⟨strAt_default (hmem ("tempRange", .str "N/A") (by simp)) ht,
      strAt_default (hmem ("condition", .str "N/A") (by simp)) hc⟩,
      strAt_default (hmem ("weatherTip", .str "N/A") (by simp)) hp⟩
  match o, hw with
  | none, _ => exact hobj [] rfl rfl rfl
  | some (.obj wkvs), hw =>
      simp only [weatherWT, Bool.and_eq_true] at hw
      have hred : jsOr (some (.obj wkvs)) (.obj []) = .obj wkvs := rfl
      rw [hred]
      exact hobj wkvs hw.1.1 hw.1.2 hw.2
  | some .null, _ => exact hobj [] rfl rfl rfl
  | some (.bool b), hw =>
      cases b with
      | false => exact hobj [] rfl rfl rfl
      | true => simp [weatherWT, okObj, okField, truthy, likeDefault] at hw
  | some (.num n), hw =>
      by_cases hn : n = 0
      · subst hn
        have hred : jsOr (some (Json.num 0)) (.obj []) = .obj [] := by
          simp [jsOr, truthy]
        rw [hred]
        exact hobj [] rfl rfl rfl
      · simp [weatherWT, okObj, okField, truthy, likeDefault, hn] at hw
  | some (.str s), hw =>
      by_cases hs : s = ""
      · subst hs
        have hred : jsOr (some (Json.str "")) (.obj []) = .obj [] := by
          simp [jsOr, truthy]
        rw [hred]
        exact hobj [] rfl rfl rfl
      · simp [weatherWT, okObj, okField, truthy, likeDefault, hs] at hw
  | some (.arr xs), hw =>
      simp [weatherWT, okObj, okField, truthy, likeDefault] at hw

theorem jget_obj (K : List (String × Json)) (k : String) :
    jget (.obj K) k = getKey K k := rfl

theorem jset_obj (K : List (String × Json)) (k : String) (x : Json) :
    jset (.obj K) k x = some (.obj (setKey K k x)) := rfl

theorem defaultFields1_obj (k : String) (d : Json) (K : List (String × Json)) :
    defaultFields [(k, d)] (.obj K) = some (.obj (setKey K k (jsOr (getKey K k) d))) := rfl

theorem defaultFields2_obj (k1 : String) (d1 : Json) (k2 : String) (d2 : Json)
    (K : List (String × Json)) :
    defaultFields [(k1, d1), (k2, d2)] (.obj K) =
      some (.obj (setKey (setKey K k1 (jsOr (getKey K k1) d1)) k2
        (jsOr (getKey (setKey K k1 (jsOr (getKey K k1) d1)) k2) d2))) := rfl

/-- A well-typed parsed day cleans to a day of the guaranteed shape. -/
theorem cleanDay_good {d : Json} (hwt : dayWT d = true) :
    ∃ w, cleanDay d = some w ∧ goodDay w = true := by
  cases d with
  | null => simp [dayWT] at hwt
  | bool b => simp [dayWT] at hwt
  | num n => simp [dayWT] at hwt
  | str s => simp [dayWT] at hwt
  | arr xs => simp [dayWT] at hwt
  | obj kvs =>
      simp only [dayWT, Bool.and_eq_true] at hwt
      obtain ⟨⟨⟨⟨hnum, hdate⟩, hw⟩, hsum⟩, hacts⟩ := hwt
      obtain ⟨wk, heqw, hgw⟩ := weather_clean (getKey kvs "dailyWeather") hw
      obtain ⟨ys, heqa, hgys⟩ := acts_clean (getKey kvs "activities") hacts
      have hrun := (rfl : cleanDay (.obj kvs) = cleanDay (.obj kvs))
      conv at hrun =>
        rhs
        simp [cleanDay, defaultFields2_obj, defaultFields1_obj,
          jset_obj, jget_obj, getKey_setKey_ne, getKey_setKey_self]
        rw [heqw]
        simp [jset_obj, jget_obj, defaultFields1_obj, getKey_setKey_ne, getKey_setKey_self]
        rw [heqa]
        simp [jset_obj]
      refine ⟨_, hrun, ?_⟩
      simp only [goodDay, Bool.and_eq_true]
      refine ⟨⟨⟨⟨⟨?_, ?_⟩, ?_⟩, ?_⟩, ?_⟩, ?_⟩
      · exact numAt_eq (by simp [getKey_setKey_self, getKey_setKey_ne])
          (isNum_jsOr (getKey kvs "dayNumber") 0 hnum)
      · exact strAt_eq (by simp [getKey_setKey_self, getKey_setKey_ne])
          (isStr_jsOr (getKey kvs "date") "Date N/A" hdate)
      · simp [getKey_setKey_ne, getKey_setKey_self]
        exact hgw
      · exact arrAt_eq (by simp [getKey_setKey_self, getKey_setKey_ne])
          (ensureArray_isArr (getKey kvs "dailyTips"))
      · exact strAt_eq (by simp [getKey_setKey_self, getKey_setKey_ne])
          (isStr_jsOr (getKey kvs "daySummary") "N/A" hsum)
      · simp [getKey_setKey_ne, getKey_setKey_self]
        simpa using hgys

theorem okObj_jsOr (o : Option Json) (h : okObj o = true) :
    ∃ e, jsOr o (.obj []) = .obj e := by
  match o, h with
  | none, _ => exact ⟨[], rfl⟩
  | some .null, _ => exact ⟨[], rfl⟩
  | some (.bool b), h => ?_
  | some (.num n), h => ?_
  | some (.str s), h => ?_
  | some (.arr xs), h => ?_
  | some (.obj e), _ => exact ⟨e, by simp [jsOr, truthy]⟩
  · cases b with
    | false => exact ⟨[], rfl⟩
    | true => simp [okObj, okField, truthy, likeDefault] at h
  · by_cases hn : n = 0
    · exact ⟨[], by simp [jsOr, truthy, hn]⟩
    · simp [okObj, okField, truthy, likeDefault, hn] at h
  · by_cases hs : s = ""
    · exact ⟨[], by simp [jsOr, truthy, hs]⟩
    · simp [okObj, okField, truthy, likeDefault, hs] at h
  · simp [okObj, okField, truthy, likeDefault] at h

/-- Mapping the day cleaner over well-typed days succeeds and yields good
days, in order. -/
theorem mapM_cleanDay {xs : List Json} (h : xs.all dayWT = true) :
    ∃ ys, mapClean cleanDay xs = some ys ∧ ys.all goodDay = true := by
  induction xs with
  | nil => exact ⟨[], rfl, rfl⟩
  | cons x rest ih =>
      simp only [List.all_cons, Bool.and_eq_true] at h
      obtain ⟨w, hw, hgw⟩ := cleanDay_good h.1
      obtain ⟨ys, hys, hgys⟩ := ih h.2
      refine ⟨w :: ys, ?_, ?_⟩
      · simp [mapClean, hw, hys]
      · simp [List.all_cons, hgw, hgys]

/-- The `itinerary.days` handling always yields an array of good days on
a well-typed slot. -/
theorem days_clean (o : Option Json) (h : daysWT o = true) :
    ∃ ds, cleanDays o = some (.arr ds) ∧ ds.all goodDay = true := by
  match o with
  | none => exact ⟨[], rfl, rfl⟩
  | some (.arr xs) =>
      simp only [daysWT] at h
      obtain ⟨ds, hds, hgds⟩ := mapM_cleanDay h
      exact ⟨ds, by simp [cleanDays, hds], hgds⟩
  | some .null => exact ⟨[], rfl, rfl⟩
  | some (.bool b) => exact ⟨[], rfl, rfl⟩
  | some (.num n) => exact ⟨[], rfl, rfl⟩
  | some (.str s) => exact ⟨[], rfl, rfl⟩
  | some (.obj kvs) => exact ⟨[], rfl, rfl⟩

/-- C1.  On every parsed document whose present fields are of their
schema kinds or falsy (`itinWT`, which includes the empty object), the
normalizer `cleanItineraryForFrontend` never throws and returns an
itinerary in which every required field is present with its correct
kind: strings at the five scalar slots, a number at `duration`, arrays
at every sequence slot, a fully populated `emergencyInformation` object
and an array of fully populated days.  (The unconditional form of the
claim is refuted by `c1_counterexample`: a truthy malformed field is
passed through, not defaulted.) -/
theorem c1_normalize_total {v : Json} (hwt : itinWT v = true) :
    ∃ w, cleanItineraryForFrontend v = some w ∧ goodItinerary w = true := by
  cases v with
  | null => simp [itinWT] at hwt
  | bool b => simp [itinWT] at hwt
  | num n => simp [itinWT] at hwt
  | str s => simp [itinWT] at hwt
  | arr xs => simp [itinWT] at hwt
  | obj kvs =>
      simp only [itinWT, Bool.and_eq_true] at hwt
      obtain ⟨⟨⟨⟨⟨⟨hdest, hdur⟩, hbud⟩, hstyle⟩, hov⟩, hei⟩, hdays⟩ := hwt
      obtain ⟨e, he⟩ := okObj_jsOr (getKey kvs "emergencyInformation") hei
      obtain ⟨ds, heqd, hgds⟩ := days_clean (getKey kvs "days") hdays
      have hrun := (rfl : cleanItineraryForFrontend (.obj kvs)
        = cleanItineraryForFrontend (.obj kvs))
      conv at hrun =>
        rhs
        simp [cleanItineraryForFrontend, truthy, topDefaults, defaultFields,
          jset_obj, jget_obj, getKey_setKey_ne, getKey_setKey_self, he, heqd]
      refine ⟨_, hrun, ?_⟩
      simp only [goodItinerary, Bool.and_eq_true]
      refine ⟨⟨⟨⟨⟨⟨⟨?_, ?_⟩, ?_⟩, ?_⟩, ?_⟩, ?_⟩, ?_⟩, ?_⟩
      · exact strAt_eq (by simp [getKey_setKey_self, getKey_setKey_ne])
          (isStr_jsOr (getKey kvs "destination") "N/A" hdest)
      · exact numAt_eq (by simp [getKey_setKey_self, getKey_setKey_ne])
          (isNum_jsOr (getKey kvs "duration") 0 hdur)
      · exact strAt_eq (by simp [getKey_setKey_self, getKey_setKey_ne])
          (isStr_jsOr (getKey kvs "estimatedBudget") "N/A" hbud)
      · exact strAt_eq (by simp [getKey_setKey_self, getKey_setKey_ne])
          (isStr_jsOr (getKey kvs "travelStyle") "N/A" hstyle)
      · exact strAt_eq (by simp [getKey_setKey_self, getKey_setKey_ne])
          (isStr_jsOr (getKey kvs "weatherOverview") "N/A" hov)
      · exact arrAt_eq (by simp [getKey_setKey_self, getKey_setKey_ne])
          (ensureArray_isArr (getKey kvs "essentialTravelTips"))
      · simp [getKey_setKey_ne, getKey_setKey_self]
        refine ⟨⟨?_, ?_⟩, ?_⟩
        · exact arrAt_eq (by simp [getKey_setKey_self, getKey_setKey_ne])
            (ensureArray_isArr (getKey e "Emergency Contacts"))
        · exact arrAt_eq (by simp [getKey_setKey_self, getKey_setKey_ne])
            (ensureArray_isArr (getKey e "Hospitals"))
        · exact arrAt_eq (by simp [getKey_setKey_self, getKey_setKey_ne])
            (ensureArray_isArr (getKey e "Embassies"))
      · simp [getKey_setKey_ne, getKey_setKey_self]
        simpa using hgds

/-- Witness for C1 at the empty object: it is well-typed and cleans,
without throwing, to an itinerary of the guaranteed shape (the fully
defaulted case of the spec). -/
theorem c1_normalize_total_witness :
    itinWT (.obj []) = true ∧
      ∃ w, cleanItineraryForFrontend (.obj []) = some w ∧ goodItinerary w = true :=
  ⟨rfl, c1_normalize_total rfl⟩

/-- Counterexample to the unconditional form of C1: a document whose
`duration` holds the truthy string "five" is cleaned without error, but
the malformed field is passed through as the string "five" — it is not
defaulted to a number, so the output violates the schema (duration is
required to be a number). -/
theorem c1_counterexample :
    ∃ w, cleanItineraryForFrontend (.obj [("duration", .str "five")]) = some w ∧
      jget w "duration" = some (.str "five") ∧ goodItinerary w = false := by
  refine ⟨_, rfl, rfl, rfl⟩
